import Mathlib

set_option maxRecDepth 16384

/-!
Verification of the backend-execution and session-persistence core of the
`gemini-mcp-tool` repository, by a shallow embedding of its TypeScript /
compiled-JavaScript sources into Lean.

Embedded source files:
  * `src/backends/codex.ts` and `dist/backends/codex.js` (Codex adapter:
    argument construction, `@file` inlining, JSONL decoding, execute pipeline)
  * `src/backends/gemini.ts` (Gemini adapter: argument construction,
    quota-exceeded fallback retry, execute pipeline)
  * `src/utils/sessionManager.ts` (generic session store: save / load /
    eviction / expiry / id sanitization)
  * `dist/utils/gitStateDetector.js` (git-state continuation check)
  * `src/constants.ts` / `dist/constants.js` (string constants)

Platform primitives (Node's `path`, `fs`, `JSON.parse`, `child_process`) are
modelled explicitly: the filesystem as a record of total functions, the
subprocess boundary as a function from an argument vector to a result.
Machine integers do not overflow in the modelled ranges, so numbers are
`Nat` / `Int`.
-/

/-! ## JavaScript string primitives used by the sources -/

/-- Model of the JavaScript `\s` (whitespace) character class, as used by the
regular expressions in the sources. -/
def isJsSpace (c : Char) : Bool :=
  c = ' ' || c = '\t' || c = '\n' || c = '\r' || c = '\x0b' || c = '\x0c' ||
  c = '\u00a0' || c = '\u1680' ||
  ('\u2000' ≤ c && c ≤ '\u200a') ||
  c = '\u2028' || c = '\u2029' || c = '\u202f' || c = '\u205f' ||
  c = '\u3000' || c = '\ufeff' 

/-- Model of JavaScript `String.prototype.includes` for a non-empty needle. -/
def jsIncludes (hay needle : String) : Bool :=
  decide (needle.toList <:+: hay.toList)

/-- Model of JavaScript `String.prototype.trim` (strips `\s` characters from
both ends). -/
def jsTrim (s : String) : String :=
  ⟨(s.toList.dropWhile isJsSpace).reverse.dropWhile isJsSpace |>.reverse⟩

/-- Model of JavaScript `str.replace(pattern, repl)` with a *string* pattern:
replaces the first occurrence of `pat` (non-empty) in `s` by `repl`.
(`$`-substitution patterns inside the replacement are not modelled; no
replacement string used in the theorems below contains a `$`.) -/
def jsReplaceOnceAux (pat repl : List Char) (fuel : Nat) (cs : List Char) :
    List Char :=
  match fuel with
  | 0 => cs
  | fuel + 1 =>
    match cs with
    | [] => []
    | c :: rest =>
        if pat.isPrefixOf cs && !pat.isEmpty then
          repl ++ cs.drop pat.length
        else c :: jsReplaceOnceAux pat repl fuel rest

/-- See above: the first-occurrence replacement itself. -/
def jsReplaceOnce (s pat repl : String) : String :=
  ⟨jsReplaceOnceAux pat.toList repl.toList s.length s.toList⟩

/-- JavaScript truthiness of an optional string (`undefined` and `""` are
falsy). -/
def jsTruthyStr : Option String → Bool
  | none => false
  | some s => s ≠ ""

/-- `s.slice(0, n)` / `String.prototype.slice` with a non-negative end (the
sources only slice hex hashes and ids, where UTF-16 units coincide with
characters). -/
def strTake (s : String) (n : Nat) : String := ⟨s.toList.take n⟩

/-- `s.substring(n)` — drop the first `n` characters. -/
def strDrop (s : String) (n : Nat) : String := ⟨s.toList.drop n⟩

/-- `String.prototype.startsWith`. -/
def strStartsWith (s pre : String) : Bool :=
  pre.toList.isPrefixOf s.toList

/-- `String.prototype.endsWith`. -/
def strEndsWith (s suf : String) : Bool :=
  suf.toList.reverse.isPrefixOf s.toList.reverse

/-- `String.prototype.split` with a non-empty string separator (fuel-indexed
scan; the fuel is the input length, enough to consume every character). -/
def jsSplitAux (sep : List Char) (fuel : Nat) (cs acc : List Char) :
    List (List Char) :=
  match fuel with
  | 0 => [acc.reverse ++ cs]
  | fuel + 1 =>
    match cs with
    | [] => [acc.reverse]
    | c :: rest =>
        if sep.isPrefixOf cs && !sep.isEmpty then
          acc.reverse :: jsSplitAux sep fuel (cs.drop sep.length) []
        else jsSplitAux sep fuel rest (c :: acc)

/-- `s.split(sep)`. -/
def jsSplit (s sep : String) : List String :=
  (jsSplitAux sep.toList s.length s.toList []).map (fun l => ⟨l⟩)

/-! ## Session id sanitization — `SessionManager.getSafeSessionId`
(`src/utils/sessionManager.ts` lines 408–422) -/

/-- The character class `[^a-zA-Z0-9-_]` of the first `replace`. -/
def invalidIdChar (c : Char) : Bool :=
  !(('a' ≤ c && c ≤ 'z') || ('A' ≤ c && c ≤ 'Z') || ('0' ≤ c && c ≤ '9') ||
    c = '-' || c = '_')

/-- The second `replace` (regex: one-or-more hyphens, global): collapse runs
of consecutive hyphens to one (each maximal hyphen run keeps a single
hyphen: a hyphen immediately followed by another is dropped). -/
def collapseHyphens : List Char → List Char
  | [] => []
  | [c] => [c]
  | a :: b :: rest =>
      if a = '-' && b = '-' then collapseHyphens (b :: rest)
      else a :: collapseHyphens (b :: rest)

/-- The third `replace` (regex: leading or trailing hyphen runs, global):
strip leading and trailing hyphens. -/
def stripEdgeHyphens (l : List Char) : List Char :=
  ((l.dropWhile (· = '-')).reverse.dropWhile (· = '-')).reverse

/-- `SessionManager.getSafeSessionId`: replace invalid characters by `-`,
collapse consecutive hyphens, strip leading/trailing hyphens, and fall back
to `"session"` when the result is empty. -/
def getSafeSessionId (sessionId : String) : String :=
  let step1 := sessionId.toList.map (fun c => if invalidIdChar c then '-' else c)
  let step2 := collapseHyphens step1
  let step3 := stripEdgeHyphens step2
  if step3.isEmpty then "session" else ⟨step3⟩

/-! ## Git state detection — `dist/utils/gitStateDetector.js` -/

/-- `GitState` as produced by `getCurrentGitState` (the fields consulted by
`detectSessionContinuation`). -/
structure GitState where
  branch : String
  commitHash : String
  workingTreeClean : Bool
  timestamp : Nat
  deriving DecidableEq, Repr

/-- Result shape of `detectSessionContinuation`. -/
structure ContinuationCheck where
  canContinue : Bool
  reason : Option String
  deriving DecidableEq, Repr

/-- `detectSessionContinuation(currentGitState, sessionGitState)`
(`dist/utils/gitStateDetector.js` lines 48–66). -/
def detectSessionContinuation (currentGitState sessionGitState : GitState) :
    ContinuationCheck :=
  if currentGitState.branch = sessionGitState.branch &&
      currentGitState.commitHash = sessionGitState.commitHash then
    { canContinue := true, reason := none }
  else if currentGitState.branch = sessionGitState.branch then
    { canContinue := false
      reason := some ("Git state changed: commit " ++
        (strTake sessionGitState.commitHash 8) ++ " → " ++
        (strTake currentGitState.commitHash 8)) }
  else
    { canContinue := false
      reason := some ("Branch changed: " ++ sessionGitState.branch ++ " → " ++
        currentGitState.branch) }

/-- `generateSessionId(gitState)` (lines 36–41): `review-` + sanitized branch
+ `-` + 8-character commit prefix. -/
def generateSessionId (gitState : GitState) : String :=
  let shortHash := strTake gitState.commitHash 8
  let safeBranch : String :=
    ⟨gitState.branch.toList.map (fun c => if invalidIdChar c then '-' else c)⟩
  "review-" ++ safeBranch ++ "-" ++ shortHash

/-! ## Session store — `src/utils/sessionManager.ts`

The store's on-disk state is modelled explicitly: the tool's primary and
legacy directories are association lists from file name to file record, in
filesystem enumeration (`readdir`) order; a file record carries the decoded
`SessionCacheEntry` (or a corruption marker for undecodable files) together
with the `birthtimeMs` / `mtimeMs` stat metadata the eviction policy sorts
by.  `Date.now()` is passed in explicitly as `now`.  Directory creation
(`ensureCacheDirAsync`) only ensures existence and is a no-op on this state.
The payload type `α` stands for the tool-specific fields of the generic
record type `T extends SessionData`. -/

/-- `SessionData` base fields plus the tool-specific remainder (`payload`
models the fields a concrete `T` adds; the object spread in `save` copies
them unchanged). -/
structure SData (α : Type) where
  sessionId : String
  createdAt : Nat
  lastAccessedAt : Nat
  payload : α
  deriving DecidableEq, Repr

/-- `SessionCacheEntry<T>`: on-disk envelope. -/
structure SessionCacheEntry (α : Type) where
  data : SData α
  timestamp : Nat
  expiryTime : Nat
  deriving DecidableEq, Repr

/-- Decoded content of a stored session file: a well-formed entry, or a file
`JSON.parse` rejects (`readSessionFile` throws on it). -/
inductive FileBody (α : Type) where
  | ok (entry : SessionCacheEntry α)
  | corrupt
  deriving DecidableEq, Repr

/-- A directory entry: decoded body plus the stat timestamps consulted by
`enforceSessionLimits`. -/
structure FileRec (α : Type) where
  body : FileBody α
  birthtimeMs : Nat
  mtimeMs : Nat
  deriving DecidableEq, Repr

/-- A directory: file name → record, in `readdir` enumeration order. -/
abbrev SDir (α : Type) := List (String × FileRec α)

/-- The store's two directories (primary and legacy location). -/
structure SStore (α : Type) where
  primary : SDir α
  legacy : SDir α
  deriving DecidableEq, Repr

/-- `SessionConfig` (tool name omitted: it only selects the directory). -/
structure SessionConfig where
  ttl : Nat
  maxSessions : Nat
  evictionPolicy : Bool -- `true` = 'lru', `false` = 'fifo'
  deriving DecidableEq, Repr

namespace SDir

/-- `readdir` + lookup of one file. -/
def lookup {α} (d : SDir α) (name : String) : Option (FileRec α) :=
  (d.find? (fun p => p.1 = name)).map (·.2)

/-- `fs.unlink`: remove a file (no error if absent — callers catch). -/
def unlink {α} (d : SDir α) (name : String) : SDir α :=
  d.filter (fun p => p.1 ≠ name)

/-- `fs.writeFile`: overwrite in place (keeping `birthtimeMs` and enumeration
position) or append a fresh file; `mtimeMs` becomes the current time. -/
def write {α} (d : SDir α) (name : String) (body : FileBody α) (now : Nat) :
    SDir α :=
  match d with
  | [] => [(name, { body := body, birthtimeMs := now, mtimeMs := now })]
  | (n, r) :: rest =>
      if n = name then
        (n, { body := body, birthtimeMs := r.birthtimeMs, mtimeMs := now }) :: rest
      else
        (n, r) :: write rest name body now

end SDir

/-- `getSessionCountFast`: number of `.json` files in the primary directory
(every stored file name ends in `.json`). -/
def getSessionCountFast {α} (st : SStore α) : Nat :=
  (st.primary.filter (fun p => strEndsWith p.1 ".json")).length

/-- `getSessionFilePath` (lines 403–406): file name derived by sanitizing the
session id.  (The directory prefix is fixed per store and elided.) -/
def getSessionFilePath (sessionId : String) : String :=
  getSafeSessionId sessionId ++ ".json"

/-- `cleanExpiredSessions` (lines 308–346): delete every `.json` file that is
expired (`now > expiryTime`) and every corrupt file. -/
def cleanExpiredSessions {α} (st : SStore α) (now : Nat) : SStore α :=
  { st with primary := st.primary.filter (fun p =>
      if strEndsWith p.1 ".json" then
        match p.2.body with
        | .ok e => !decide (now > e.expiryTime)
        | .corrupt => false
      else true) }

/-- Stable insertion sort by a numeric key — models `Array.prototype.sort`
with comparator `a.key - b.key` (ES2019+ sorts are stable). -/
def sortByKey {α} (key : α → Nat) : List α → List α
  | [] => []
  | x :: xs => insertSorted x (sortByKey key xs)
where
  insertSorted (x : α) : List α → List α
    | [] => [x]
    | y :: ys => if key x ≤ key y then x :: y :: ys else y :: insertSorted x ys

/-- `enforceSessionLimits` (lines 351–398): when the `.json` file count
exceeds `maxSessions`, sort by `birthtimeMs` (fifo) or `mtimeMs` (lru)
ascending and unlink files from the front down to the maximum. -/
def enforceSessionLimits {α} (cfg : SessionConfig) (st : SStore α) : SStore α :=
  let jsonFiles := st.primary.filter (fun p => strEndsWith p.1 ".json")
  if jsonFiles.length ≤ cfg.maxSessions then st
  else
    let key : String × FileRec α → Nat := fun p =>
      if cfg.evictionPolicy then p.2.mtimeMs else p.2.birthtimeMs
    let sorted := sortByKey key jsonFiles
    let toRemove := sorted.take (jsonFiles.length - cfg.maxSessions)
    { st with primary := st.primary.filter (fun p =>
        !(toRemove.any (fun q => q.1 = p.1))) }

/-- The `sessionCount >= this.config.maxSessions * 0.8` test of `save`.
`0.8 * maxSessions` is exact for the repository's configured maxima; the
comparison is modelled as `5 * count ≥ 4 * maxSessions`. -/
def atCleanupThreshold (count maxSessions : Nat) : Bool :=
  5 * count ≥ 4 * maxSessions

/-- `SessionManager.save` (lines 131–167): opportunistic expiry sweep at 80%
occupancy, write the freshly-wrapped entry (`createdAt` falling back to `now`
when unset/zero, `lastAccessedAt` refreshed, expiry `now + ttl`), then evict
down to `maxSessions` when the pre-write count was at the maximum. -/
def SessionManager.save {α} (cfg : SessionConfig) (st : SStore α) (now : Nat)
    (sessionId : String) (data : SData α) : SStore α :=
  let sessionCount := getSessionCountFast st
  let st := if atCleanupThreshold sessionCount cfg.maxSessions then
      cleanExpiredSessions st now
    else st
  let filePath := getSessionFilePath sessionId
  let cacheEntry : SessionCacheEntry α :=
    { data := { data with
        sessionId := sessionId
        createdAt := if data.createdAt = 0 then now else data.createdAt
        lastAccessedAt := now }
      timestamp := now
      expiryTime := now + cfg.ttl }
  let st := { st with primary := SDir.write st.primary filePath (.ok cacheEntry) now }
  if sessionCount ≥ cfg.maxSessions then enforceSessionLimits cfg st else st

/-- `SessionManager.load` (lines 174–247).  Returns the loaded record (or
`none`) together with the store as mutated by expiry deletion, the LRU
access-time rewrite, legacy migration, and corrupt-file removal. -/
def SessionManager.load {α} (cfg : SessionConfig) (st : SStore α) (now : Nat)
    (sessionId : String) : Option (SData α) × SStore α :=
  let safeSessionId := getSafeSessionId sessionId
  let fname := safeSessionId ++ ".json"
  match SDir.lookup st.primary fname, SDir.lookup st.legacy fname with
  | none, none => (none, st)
  | primHit, legacyHit =>
    let fromPrimary := primHit.isSome
    let rec? := if fromPrimary then primHit else legacyHit
    match rec? with
    | none => (none, st) -- unreachable: one of the two is `some`
    | some r =>
      match r.body with
      | .corrupt =>
          -- `readSessionFile` throws; the catch block deletes the *primary*
          -- file path if it exists (lines 229–246)
          if (SDir.lookup st.primary fname).isSome then
            (none, { st with primary := st.primary.unlink fname })
          else (none, st)
      | .ok cacheEntry =>
          if now > cacheEntry.expiryTime then
            -- expired: unlink the active file, sweep, return absence
            let st := if fromPrimary then
                { st with primary := st.primary.unlink fname }
              else { st with legacy := st.legacy.unlink fname }
            (none, cleanExpiredSessions st now)
          else
            -- LRU: bump access time and rewrite the active file
            let bumped := if cfg.evictionPolicy then
                { cacheEntry with
                  data := { cacheEntry.data with lastAccessedAt := now }
                  timestamp := now }
              else cacheEntry
            let st := if cfg.evictionPolicy then
                (if fromPrimary then
                  { st with primary := SDir.write st.primary fname (.ok bumped) now }
                else { st with legacy := SDir.write st.legacy fname (.ok bumped) now })
              else st
            -- migrate a legacy hit into the primary directory
            let st := if !fromPrimary then
                { st with
                  primary := SDir.write st.primary fname (.ok bumped) now
                  legacy := st.legacy.unlink fname }
              else st
            (some bumped.data, st)

/-- The directory entry that `save cfg · now id data` writes when the file
is fresh: the sanitized file name, the `CacheEntry` envelope with refreshed
`lastAccessedAt` and expiry `now + ttl`, and stat times equal to the write
time. -/
def savedEntryFile {α} (cfg : SessionConfig) (dataOf : String → SData α)
    (p : String × Nat) : String × FileRec α :=
  (getSafeSessionId p.1 ++ ".json",
   { body := FileBody.ok
       { data := { dataOf p.1 with
           sessionId := p.1
           createdAt := if (dataOf p.1).createdAt = 0 then p.2
             else (dataOf p.1).createdAt
           lastAccessedAt := p.2 }
         timestamp := p.2
         expiryTime := p.2 + cfg.ttl }
     birthtimeMs := p.2
     mtimeMs := p.2 })

/-- A sequence of `save` calls: each pair is an id and its `Date.now()`. -/
def saveAll {α} (cfg : SessionConfig) (dataOf : String → SData α)
    (st : SStore α) (ps : List (String × Nat)) : SStore α :=
  ps.foldl (fun st p => SessionManager.save cfg st p.2 p.1 (dataOf p.1)) st

/-- `SessionManager.delete` (lines 288–303). -/
def SessionManager.delete {α} (st : SStore α) (sessionId : String) :
    Bool × SStore α :=
  let fname := getSessionFilePath sessionId
  if (SDir.lookup st.primary fname).isSome then
    (true, { st with primary := st.primary.unlink fname })
  else (false, st)

/-! ## POSIX path model (Node `path`) for the Codex file-reference inliner

Absolute paths are modelled as normalized segment lists (`NPath`).  All path
values flowing through `translateFileRefs` are absolute once the working
directory is resolved, so relative paths only occur as raw reference strings
and as the output of `path.relative`. -/

/-- A normalized absolute path, as its list of segments. -/
abbrev NPath := List String

/-- Split a path string into its raw segments (empty segments, e.g. from
doubled separators, are dropped, as `path.normalize` does). -/
def strSegs (s : String) : List String :=
  (jsSplit s "/").filter (fun seg => seg ≠ "")

/-- `path.isAbsolute` (POSIX). -/
def isAbsStr (s : String) : Bool := strStartsWith s "/"

/-- Normalization of an absolute path's segments: `.` is dropped, `..` pops
the previous segment (or stays at the root). -/
def normalizeSegs (segs : List String) : NPath :=
  segs.foldl (fun acc seg =>
    if seg = "." then acc
    else if seg = ".." then acc.dropLast
    else acc ++ [seg]) []

/-- `path.resolve(base, s)` for an absolute, normalized `base` (also models
`path.resolve(path.join(base, s))`, which normalizes identically). -/
def resolveStr (base : NPath) (s : String) : NPath :=
  if isAbsStr s then normalizeSegs (strSegs s)
  else normalizeSegs (base ++ strSegs s)

/-- `path.relative(fromP, toP)` for absolute normalized inputs, as the list of
segments of the returned relative path. -/
def pathRelative (fromP toP : NPath) : List String :=
  match fromP, toP with
  | [], t => t
  | f, [] => f.map (fun _ => "..")
  | fh :: ft, th :: tt =>
      if fh = th then pathRelative ft tt
      else (fh :: ft).map (fun _ => "..") ++ th :: tt

/-- `CodexBackend.isPathWithinWorkspace` (`dist/backends/codex.js` lines
108–114): `path.relative(workDir, path)` is empty, or neither starts with
`..` nor is absolute. -/
def isPathWithinWorkspace (resolvedPath workingDir : NPath) : Bool :=
  let relative := String.intercalate "/" (pathRelative workingDir resolvedPath)
  relative = "" || (!(strStartsWith relative "..") && !(isAbsStr relative))

/-! ## Codex `@file` reference inliner — `dist/backends/codex.js`
(`translateFileRefs`, lines 121–259) -/

/-- Inline-content markers (`ERROR_MESSAGES` in `dist/constants.js`). -/
def ACCESS_DENIED_PATH_TRAVERSAL : String :=
  "[Access denied: path traversal not allowed]"

/-- `ERROR_MESSAGES.ACCESS_DENIED_OUTSIDE_WORKSPACE`. -/
def ACCESS_DENIED_OUTSIDE_WORKSPACE : String :=
  "[Access denied: path is outside workspace]"

/-- `ERROR_MESSAGES.ACCESS_DENIED_SYMLINK_OUTSIDE_WORKSPACE`. -/
def ACCESS_DENIED_SYMLINK_OUTSIDE_WORKSPACE : String :=
  "[Access denied: symlink points outside workspace]"

/-- `ERROR_MESSAGES.FILE_TOO_LARGE`. -/
def FILE_TOO_LARGE : String := "[File too large]"

/-- `ERROR_MESSAGES.FILE_NOT_FOUND`. -/
def FILE_NOT_FOUND : String := "[File not found]"

/-- `ERROR_MESSAGES.ERROR_READING_FILE`. -/
def ERROR_READING_FILE : String := "[Error reading file]"

/-- `ERROR_MESSAGES.INLINE_LIMIT_REACHED`. -/
def INLINE_LIMIT_REACHED : String := "[Inline limit reached]"

/-- `CODEX_FILE_REF.MAX_FILE_BYTES` (10 MiB). -/
def MAX_FILE_BYTES : Nat := 10 * 1024 * 1024

/-- `CODEX_FILE_REF.MAX_TOTAL_BYTES` (20 MiB). -/
def MAX_TOTAL_BYTES : Nat := 20 * 1024 * 1024

/-- `CODEX_FILE_REF.MAX_DIR_ENTRIES`. -/
def MAX_DIR_ENTRIES : Nat := 200

/-- The filesystem as seen by `translateFileRefs`; `realp` is `fs.realpath`
(`none` models a failure/throw).  `isDir`, `size`, `content` and `dirEntries`
model `fs.stat`, `fs.readFile` and `fs.opendir` on the canonical target path;
they are consulted only after a successful `fs.access` and `fs.realpath`,
where the source assumes they succeed (a racing failure would hit the same
catch-all marker). -/
structure FSModel where
  access : NPath → Bool
  realp : NPath → Option NPath
  isDir : NPath → Bool
  size : NPath → Nat
  content : NPath → String
  dirEntries : NPath → List String

/-- The `prompt.match` regex (an `@`, an optional dot-slash or dot-dot-slash
prefix, then one-or-more characters that are neither whitespace nor `@`):
since the optional prefix matches a subset of the mandatory character run,
the matches are exactly `@` followed by a maximal non-empty run of
non-whitespace, non-`@` characters. -/
def scanFileRefs : List Char → List String
  | [] => []
  | c :: rest =>
      if c = '@' then
        let tok := rest.takeWhile (fun d => !(isJsSpace d) && d ≠ '@')
        if tok.isEmpty then scanFileRefs rest
        else (⟨'@' :: tok⟩ : String) :: scanFileRefs (rest.drop tok.length)
      else scanFileRefs rest
termination_by l => l.length
decreasing_by
  · simp
  · simp only [List.length_cons, List.length_drop]
    omega
  · simp

/-- `prompt.match(regex) || []`. -/
def matchFileRefs (prompt : String) : List String :=
  scanFileRefs prompt.toList

/-- `(n / 1024 / 1024).toFixed(2)` for the byte counts appearing in the
"file too large" marker (fixed-point model of the double formatting;
the rounding of `toFixed` is to the nearest hundredth). -/
def toFixed2MB (n : Nat) : String :=
  let scaled := (n * 100 + 1048576 / 2) / 1048576
  let frac := scaled % 100
  toString (scaled / 100) ++ "." ++
    (if frac < 10 then "0" ++ toString frac else toString frac)

/-- Mutable state of the `translateFileRefs` loop. -/
structure TfState where
  translated : String
  totalInlinedBytes : Nat
  processedRefs : List String
  processedTargets : List NPath
  deriving DecidableEq, Repr

/-- `translated = translated.replace(ref, marker)`: substitute the first
occurrence of the reference token. -/
def substituteRef (st : TfState) (ref marker : String) : TfState :=
  { st with translated := jsReplaceOnce st.translated ref marker }

/-- One iteration of the `for (const ref of fileRefs)` loop of
`translateFileRefs` (`dist/backends/codex.js` lines 141–250). -/
def processRef (fs : FSModel) (lexWD canonWD : NPath) (st : TfState)
    (ref : String) : TfState :=
  let filePath := strDrop ref 1
  -- duplicate literal reference → pointer to the first occurrence
  if st.processedRefs.contains ref then
    substituteRef st ref ("\n--- Duplicate @reference: " ++ filePath ++
      " (see earlier in prompt) ---\n")
  else
  let st := { st with processedRefs := st.processedRefs ++ [ref] }
  let absolutePath := resolveStr lexWD filePath
  let resolvedPath := absolutePath
  -- lexical containment check against the resolved working directory
  if !isPathWithinWorkspace resolvedPath lexWD then
    substituteRef st ref
      (ACCESS_DENIED_OUTSIDE_WORKSPACE ++ " (" ++ filePath ++ ")")
  else if !(fs.access absolutePath) then
    -- non-existent path containing `..` is treated as a traversal probe
    if jsIncludes filePath ".." then
      substituteRef st ref ACCESS_DENIED_PATH_TRAVERSAL
    else
      substituteRef st ref (FILE_NOT_FOUND ++ ": " ++ filePath)
  else
    match fs.realp absolutePath with
    | none =>
        -- `fs.realpath` threw: the catch-all substitutes an error marker
        substituteRef st ref (ERROR_READING_FILE ++ ": " ++ filePath)
    | some canonicalTargetPath =>
        let isSymlinkedPath := canonicalTargetPath ≠ resolvedPath
        if !isPathWithinWorkspace canonicalTargetPath canonWD then
          substituteRef st ref
            ((if isSymlinkedPath then ACCESS_DENIED_SYMLINK_OUTSIDE_WORKSPACE
              else ACCESS_DENIED_OUTSIDE_WORKSPACE) ++
             " (" ++ filePath ++ ")")
        else if st.processedTargets.contains canonicalTargetPath then
          substituteRef st ref ("\n--- Duplicate @reference: " ++ filePath ++
            " (see earlier in prompt) ---\n")
        else if fs.isDir canonicalTargetPath then
          let entries := fs.dirEntries canonicalTargetPath
          let fileNames := entries.take MAX_DIR_ENTRIES
          let truncated := decide (entries.length > MAX_DIR_ENTRIES)
          let suffix := if truncated then
              ", ... (showing first " ++ toString MAX_DIR_ENTRIES ++ ")"
            else ""
          let directoryListing := "\n--- Directory: " ++ filePath ++
            " ---\nFiles: " ++ String.intercalate ", " fileNames ++ suffix ++
            "\n--- end directory ---\n"
          let listingBytes := directoryListing.utf8ByteSize
          if st.totalInlinedBytes + listingBytes > MAX_TOTAL_BYTES then
            substituteRef st ref (INLINE_LIMIT_REACHED ++ ": " ++ filePath)
          else
            let st := substituteRef st ref directoryListing
            { st with
              totalInlinedBytes := st.totalInlinedBytes + listingBytes
              processedTargets := st.processedTargets ++ [canonicalTargetPath] }
        else if fs.size canonicalTargetPath > MAX_FILE_BYTES then
          substituteRef st ref (FILE_TOO_LARGE ++ ": " ++ filePath ++ " (" ++
            toFixed2MB (fs.size canonicalTargetPath) ++
            "MB exceeds 10MB limit)")
        else if st.totalInlinedBytes + fs.size canonicalTargetPath >
            MAX_TOTAL_BYTES then
          substituteRef st ref (INLINE_LIMIT_REACHED ++ ": " ++ filePath)
        else
          let fileBlock := "\n--- File: " ++ filePath ++ " ---\n" ++
            fs.content canonicalTargetPath ++ "\n--- end file: " ++ filePath ++
            " ---\n"
          let st := substituteRef st ref fileBlock
          { st with
            totalInlinedBytes :=
              st.totalInlinedBytes + fs.size canonicalTargetPath
            processedTargets := st.processedTargets ++ [canonicalTargetPath] }

/-- `path.resolve(workingDir)` for `workingDir = cwd || process.cwd()` (the
empty string being falsy), with `procCwd` the process working directory. -/
def lexicalWorkDirOf (cwd : Option String) (procCwd : NPath) : NPath :=
  match cwd with
  | some s => if s = "" then procCwd else resolveStr procCwd s
  | none => procCwd

/-- `await fs.realpath(workingDir).catch(() => lexicalWorkDir)`. -/
def canonicalWorkDirOf (fs : FSModel) (cwd : Option String) (procCwd : NPath) :
    NPath :=
  (fs.realp (lexicalWorkDirOf cwd procCwd)).getD (lexicalWorkDirOf cwd procCwd)

/-- `CodexBackend.translateFileRefs` (`dist/backends/codex.js` lines
121–259).  `cwd` is the config's working directory (`cwd || process.cwd()`,
the empty string being falsy), `procCwd` the process working directory. -/
def translateFileRefs (fs : FSModel) (cwd : Option String) (procCwd : NPath)
    (prompt : String) : String :=
  let lexicalWorkDir : NPath := lexicalWorkDirOf cwd procCwd
  let canonicalWorkDir := canonicalWorkDirOf fs cwd procCwd
  let fileRefs := matchFileRefs prompt
  if fileRefs.isEmpty then prompt
  else
    (fileRefs.foldl (processRef fs lexicalWorkDir canonicalWorkDir)
      { translated := prompt
        totalInlinedBytes := 0
        processedRefs := []
        processedTargets := [] }).translated

/-! ## JSON values and `JSON.parse` (platform primitive used by the Codex
JSONL decoder) -/

/-- A JSON value (numbers restricted to integers; every JSON literal in the
repository's event protocol and fixtures is an integer). -/
inductive JVal where
  | null
  | bool (b : Bool)
  | num (n : Int)
  | str (s : String)
  | arr (elems : List JVal)
  | obj (fields : List (String × JVal))
  deriving Repr

/-- Property access `v.k` (yields `undefined`, i.e. `none`, on non-objects
and missing keys). -/
def JVal.getField : JVal → String → Option JVal
  | .obj fields, k => (fields.find? (fun p => p.1 = k)).map (·.2)
  | _, _ => none

/-- JavaScript truthiness of a JSON value. -/
def jsTruthy : JVal → Bool
  | .null => false
  | .bool b => b
  | .num n => n ≠ 0
  | .str s => s ≠ ""
  | .arr _ => true
  | .obj _ => true

/-- Truthiness of a possibly-`undefined` value. -/
def jsTruthyOpt : Option JVal → Bool
  | none => false
  | some v => jsTruthy v

/-- `event.type === 'str'` (strict string comparison of a field). -/
def typeFieldIs (v : JVal) (field t : String) : Bool :=
  match v.getField field with
  | some (.str s) => s = t
  | _ => false

/-- JavaScript string conversion, as applied by `Array.prototype.join`
(fuel-indexed over the value's size, which bounds its depth). -/
def jsToStringAux : Nat → JVal → String
  | 0, _ => ""
  | fuel + 1, v =>
    match v with
    | .null => "null"
    | .bool true => "true"
    | .bool false => "false"
    | .num n => toString n
    | .str s => s
    | .obj _ => "[object Object]"
    | .arr elems => String.intercalate "," (elems.map (jsToStringAux fuel))

/-- JavaScript string conversion of a JSON value.  The fuel bounds the
nesting depth; every value produced by `jsonParse` has depth below its
input's length, far below this constant (JavaScript itself overflows the
stack long before such depths). -/
def jsToString (v : JVal) : String := jsToStringAux 1048576 v

/-- JSON's own whitespace characters. -/
def isJsonWs (c : Char) : Bool :=
  c = ' ' || c = '\t' || c = '\n' || c = '\r'

/-- One escape sequence of a JSON string literal (after the backslash).
Returns the decoded character and the remaining input.  `\u` escapes decode
the four hex digits (surrogate pairing is not needed for the repository's
event vocabulary). -/
def parseJEscape : List Char → Option (Char × List Char)
  | '"' :: rest => some ('"', rest)
  | '\\' :: rest => some ('\\', rest)
  | '/' :: rest => some ('/', rest)
  | 'b' :: rest => some ('\x08', rest)
  | 'f' :: rest => some ('\x0c', rest)
  | 'n' :: rest => some ('\n', rest)
  | 'r' :: rest => some ('\r', rest)
  | 't' :: rest => some ('\t', rest)
  | 'u' :: a :: b :: c :: d :: rest =>
      let hex? := fun (x : Char) =>
        if '0' ≤ x && x ≤ '9' then some (x.toNat - '0'.toNat)
        else if 'a' ≤ x && x ≤ 'f' then some (x.toNat - 'a'.toNat + 10)
        else if 'A' ≤ x && x ≤ 'F' then some (x.toNat - 'A'.toNat + 10)
        else none
      match hex? a, hex? b, hex? c, hex? d with
      | some ha, some hb, some hc, some hd =>
          some (Char.ofNat (((ha * 16 + hb) * 16 + hc) * 16 + hd), rest)
      | _, _, _, _ => none
  | _ => none

/-- Body of a JSON string literal (input starts after the opening quote);
returns the decoded characters and the input after the closing quote. -/
def parseJStringBody (fuel : Nat) (cs : List Char) :
    Option (List Char × List Char) :=
  match fuel with
  | 0 => none
  | fuel + 1 =>
    match cs with
    | [] => none
    | '"' :: rest => some ([], rest)
    | '\\' :: rest =>
        match parseJEscape rest with
        | none => none
        | some (c, rest') =>
            (parseJStringBody fuel rest').map (fun p => (c :: p.1, p.2))
    | c :: rest =>
        (parseJStringBody fuel rest).map (fun p => (c :: p.1, p.2))

/-- A run of decimal digits, as a number. -/
def parseJDigits (cs : List Char) : Option (Nat × List Char) :=
  let digits := cs.takeWhile (fun c => '0' ≤ c && c ≤ '9')
  if digits.isEmpty then none
  else some (digits.foldl (fun acc c => acc * 10 + (c.toNat - '0'.toNat)) 0,
    cs.drop digits.length)

mutual

/-- A JSON value (fuel-indexed recursive-descent parser mirroring
`JSON.parse`; fractional and exponent number forms do not occur in the
modelled protocol and are rejected). -/
def parseJValue (fuel : Nat) (cs : List Char) : Option (JVal × List Char) :=
  match fuel with
  | 0 => none
  | fuel + 1 =>
    let cs := cs.dropWhile isJsonWs
    match cs with
    | [] => none
    | 'n' :: 'u' :: 'l' :: 'l' :: rest => some (.null, rest)
    | 't' :: 'r' :: 'u' :: 'e' :: rest => some (.bool true, rest)
    | 'f' :: 'a' :: 'l' :: 's' :: 'e' :: rest => some (.bool false, rest)
    | '"' :: rest =>
        (parseJStringBody fuel rest).map (fun p => (.str ⟨p.1⟩, p.2))
    | '-' :: rest =>
        (parseJDigits rest).bind (fun p =>
          match p.2.head? with
          | some '.' => none
          | some 'e' => none
          | some 'E' => none
          | _ => some (.num (-(p.1 : Int)), p.2))
    | '[' :: rest =>
        let rest := rest.dropWhile isJsonWs
        match rest with
        | ']' :: rest' => some (.arr [], rest')
        | _ => (parseJElems fuel rest).map (fun p => (.arr p.1, p.2))
    | '{' :: rest =>
        let rest := rest.dropWhile isJsonWs
        match rest with
        | '}' :: rest' => some (.obj [], rest')
        | _ => (parseJMembers fuel rest).map (fun p => (.obj p.1, p.2))
    | c :: _ =>
        if '0' ≤ c && c ≤ '9' then
          (parseJDigits cs).bind (fun p =>
            match p.2.head? with
            | some '.' => none
            | some 'e' => none
            | some 'E' => none
            | _ => some (.num (p.1 : Int), p.2))
        else none

/-- Comma-separated array elements, consuming the closing bracket. -/
def parseJElems (fuel : Nat) (cs : List Char) :
    Option (List JVal × List Char) :=
  match fuel with
  | 0 => none
  | fuel + 1 =>
    (parseJValue fuel cs).bind (fun p =>
      let rest := p.2.dropWhile isJsonWs
      match rest with
      | ',' :: rest' =>
          (parseJElems fuel rest').map (fun q => (p.1 :: q.1, q.2))
      | ']' :: rest' => some ([p.1], rest')
      | _ => none)

/-- Comma-separated object members, consuming the closing brace. -/
def parseJMembers (fuel : Nat) (cs : List Char) :
    Option (List (String × JVal) × List Char) :=
  match fuel with
  | 0 => none
  | fuel + 1 =>
    let cs := cs.dropWhile isJsonWs
    match cs with
    | '"' :: rest =>
        (parseJStringBody fuel rest).bind (fun kp =>
          let rest := kp.2.dropWhile isJsonWs
          match rest with
          | ':' :: rest' =>
              (parseJValue fuel rest').bind (fun vp =>
                let rest'' := vp.2.dropWhile isJsonWs
                match rest'' with
                | ',' :: rest3 =>
                    (parseJMembers fuel rest3).map
                      (fun q => ((⟨kp.1⟩, vp.1) :: q.1, q.2))
                | '}' :: rest3 => some ([(⟨kp.1⟩, vp.1)], rest3)
                | _ => none)
          | _ => none)
    | _ => none

end

/-- `JSON.parse` (throws, i.e. `none`, on anything not a single JSON value
followed only by whitespace). -/
def jsonParse (s : String) : Option JVal :=
  match parseJValue (s.length + 1) s.toList with
  | some (v, rest) => if (rest.dropWhile isJsonWs).isEmpty then some v else none
  | none => none

/-! ## Codex JSONL decoder — `CodexBackend.parseJsonOutput`
(`dist/backends/codex.js` lines 267–336) -/

/-- `CODEX_OUTPUT.MAX_JSONL_LINES`. -/
def MAX_JSONL_LINES : Nat := 10000

/-- Parsed result from Codex JSON output (`CodexJsonResult`).  `threadId`
holds the raw `thread_id` field value. -/
structure CodexJsonResult where
  response : String
  threadId : Option JVal
  deriving Repr

/-- One attempted match of the fallback regex (`"text"`, optional
whitespace, `:`, optional whitespace, then a non-empty quoted run without
quotes) at the head of the input; returns the captured group and the
remaining input. -/
def tryTextMatch : List Char → Option (String × List Char)
  | '"' :: 't' :: 'e' :: 'x' :: 't' :: '"' :: rest =>
      match rest.dropWhile isJsSpace with
      | ':' :: r2 =>
        match r2.dropWhile isJsSpace with
        | '"' :: r4 =>
          let body := r4.takeWhile (fun c => c ≠ '"')
          match r4.drop body.length with
          | '"' :: r6 => if body.isEmpty then none else some (⟨body⟩, r6)
          | _ => none
        | _ => none
      | _ => none
  | _ => none

/-- Global scan of the fallback regex over the raw output (fuel-indexed:
each step consumes at least one character). -/
def textScrapeAux (fuel : Nat) (cs : List Char) : List String :=
  match fuel with
  | 0 => []
  | fuel + 1 =>
    match cs with
    | [] => []
    | _ :: rest =>
        match tryTextMatch cs with
        | some (txt, r) => txt :: textScrapeAux fuel r
        | none => textScrapeAux fuel rest

/-- All captures of `jsonlOutput.match` with the fallback text regex. -/
def textScrape (s : String) : List String :=
  textScrapeAux s.length s.toList

/-- Response chunks contributed by one decoded event (the three independent
`if` branches for `item.agent_message`, `turn.completed` and `item.message`
of `parseJsonOutput`). -/
def eventChunks (event : JVal) : List JVal :=
  let agentChunks :=
    if typeFieldIs event "type" "item.agent_message" &&
        jsTruthyOpt (event.getField "content") then
      [(event.getField "content").getD .null]
    else []
  let turnChunks :=
    if typeFieldIs event "type" "turn.completed" &&
        jsTruthyOpt (event.getField "output") then
      match (event.getField "output").getD .null with
      | .str s => [JVal.str s]
      | o =>
          if jsTruthyOpt (o.getField "content") then
            [(o.getField "content").getD .null]
          else []
    else []
  let messageChunks :=
    if typeFieldIs event "type" "item.message" &&
        jsTruthyOpt (event.getField "content") then
      match (event.getField "content").getD .null with
      | .arr parts =>
          parts.filterMap (fun part =>
            if typeFieldIs part "type" "text" &&
                jsTruthyOpt (part.getField "text") then
              some ((part.getField "text").getD .null)
            else none)
      | .str s => [JVal.str s]
      | _ => []
    else []
  agentChunks ++ turnChunks ++ messageChunks

/-- `CodexBackend.parseJsonOutput` (`dist/backends/codex.js` lines 267–336):
split the trimmed output into at most `MAX_JSONL_LINES` lines, decode each
non-blank line as JSON (skipping undecodable lines), record the last
`thread.started` thread id, collect response chunks, join with newlines and
trim; fall back to the regex text scrape (or the raw output) when no chunk
was found. -/
def parseJsonOutput (jsonlOutput : String) : CodexJsonResult :=
  let allLines := jsSplit (jsTrim jsonlOutput) "\n"
  let lines := allLines.take MAX_JSONL_LINES
  let scan := lines.foldl (fun (acc : Option JVal × List JVal) line =>
    if jsTrim line = "" then acc
    else
      match jsonParse line with
      | none => acc
      | some event =>
          let threadId :=
            if typeFieldIs event "type" "thread.started" &&
                jsTruthyOpt (event.getField "thread_id") then
              event.getField "thread_id"
            else acc.1
          (threadId, acc.2 ++ eventChunks event)) (none, [])
  let threadId := scan.1
  let response := jsTrim (String.intercalate "\n" (scan.2.map jsToString))
  if response = "" then
    match textScrape jsonlOutput with
    | [] => { response := jsonlOutput, threadId := threadId }
    | texts =>
        { response := String.intercalate "\n" texts, threadId := threadId }
  else { response := response, threadId := threadId }

/-! ## Backend configuration and constants -/

/-- `BackendConfig` (`src/backends/types.ts`).  Optional string/boolean
fields are `Option`s (`none` = `undefined`); `allowedTools` left
`undefined` behaves as the empty list in every consumer. -/
structure BackendConfig where
  provider : String
  model : Option String := none
  sandbox : Option Bool := none
  sandboxMode : Option String := none
  changeMode : Bool := false
  allowedTools : List String := []
  cwd : Option String := none
  approvalMode : Option String := none
  fullAuto : Bool := false
  codexThreadId : Option String := none
  reasoningEffort : Option String := none
  deriving DecidableEq, Repr

/-- `BackendResult` (`src/backends/types.ts`); `codexThreadId` carries the
raw decoded `thread_id` value. -/
structure BackendResult where
  response : String
  backend : String
  model : Option String
  codexThreadId : Option JVal := none
  deriving Repr

namespace CODEX_CLI

/-- `CODEX_CLI.COMMANDS.EXEC`. -/
def EXEC : String := "exec"

/-- `CODEX_CLI.COMMANDS.RESUME`. -/
def RESUME : String := "resume"

/-- `CODEX_CLI.FLAGS.MODEL`. -/
def MODEL : String := "-m"

/-- `CODEX_CLI.FLAGS.APPROVAL`. -/
def APPROVAL : String := "-a"

/-- `CODEX_CLI.FLAGS.SANDBOX`. -/
def SANDBOX : String := "-s"

/-- `CODEX_CLI.FLAGS.FULL_AUTO`. -/
def FULL_AUTO : String := "--full-auto"

/-- `CODEX_CLI.FLAGS.JSON`. -/
def JSON : String := "--json"

/-- `CODEX_CLI.FLAGS.STDIN`. -/
def STDIN : String := "-"

/-- `CODEX_CLI.FLAGS.REASONING_EFFORT` — present only in
`src/constants.ts`; `dist/constants.js` has no such flag. -/
def REASONING_EFFORT : String := "--reasoning-effort"

/-- `CODEX_CLI.APPROVAL_MODES.ON_REQUEST`. -/
def ON_REQUEST : String := "on-request"

/-- `CODEX_CLI.SANDBOX_MODES.READ_ONLY`. -/
def READ_ONLY : String := "read-only"

/-- `CODEX_CLI.SANDBOX_MODES.WORKSPACE_WRITE`. -/
def WORKSPACE_WRITE : String := "workspace-write"

/-- `CODEX_CLI.SANDBOX_MODES.FULL_ACCESS`. -/
def FULL_ACCESS : String := "danger-full-access"

end CODEX_CLI

/-- `CODEX_MODELS.DEFAULT` (`dist/constants.js`). -/
def CODEX_MODELS_DEFAULT : String := "gpt-5.3-codex"

/-! ## Codex argument construction -/

/-- `CodexBackend.buildArgs` from the TypeScript source
(`src/backends/codex.ts` lines 78–122): the `exec` / `resume <threadId>`
subcommand is pushed first, followed by the model, approval, sandbox,
reasoning-effort, `--json` and stdin flags. -/
def CodexBackend.buildArgs (config : BackendConfig) : List String :=
  let args : List String :=
    match config.codexThreadId with
    | some tid =>
        if tid ≠ "" then [CODEX_CLI.RESUME, tid] else [CODEX_CLI.EXEC]
    | none => [CODEX_CLI.EXEC]
  let args := args ++
    (match config.model with
     | some m => if m ≠ "" then [CODEX_CLI.MODEL, m] else []
     | none => [])
  let args := args ++
    (match config.approvalMode with
     | some am =>
        if am ≠ "" then [CODEX_CLI.APPROVAL, am]
        else if config.fullAuto then [CODEX_CLI.FULL_AUTO]
        else [CODEX_CLI.APPROVAL, CODEX_CLI.ON_REQUEST]
     | none =>
        if config.fullAuto then [CODEX_CLI.FULL_AUTO]
        else [CODEX_CLI.APPROVAL, CODEX_CLI.ON_REQUEST])
  let args := args ++
    (if config.sandbox = some false then
        [CODEX_CLI.SANDBOX, CODEX_CLI.FULL_ACCESS]
     else [CODEX_CLI.SANDBOX, CODEX_CLI.WORKSPACE_WRITE])
  let args := args ++
    (match config.reasoningEffort with
     | some re => if re ≠ "" then [CODEX_CLI.REASONING_EFFORT, re] else []
     | none => [])
  args ++ [CODEX_CLI.JSON] ++ [CODEX_CLI.STDIN]

/-- A JavaScript argument-vector element of the compiled backend: a string,
or the `undefined` value (`dist/backends/codex.js` pushes
`CODEX_CLI.FLAGS.REASONING_EFFORT`, a property that does not exist in
`dist/constants.js`). -/
inductive JSArg where
  | str (s : String)
  | undef
  deriving DecidableEq, Repr

/-- `CodexBackend.buildArgs` from the compiled JavaScript
(`dist/backends/codex.js` lines 63–103): same subcommand-first layout; the
sandbox mode is `sandboxMode ?? (sandbox ? workspace-write : read-only)`,
and the reasoning-effort flag name is the missing constant (`undefined`). -/
def CodexBackendDist.buildArgs (config : BackendConfig) : List JSArg :=
  let args : List JSArg :=
    match config.codexThreadId with
    | some tid =>
        if tid ≠ "" then [.str CODEX_CLI.RESUME, .str tid]
        else [.str CODEX_CLI.EXEC]
    | none => [.str CODEX_CLI.EXEC]
  let args := args ++
    (match config.model with
     | some m => if m ≠ "" then [.str CODEX_CLI.MODEL, .str m] else []
     | none => [])
  let args := args ++
    (match config.approvalMode with
     | some am =>
        if am ≠ "" then [.str CODEX_CLI.APPROVAL, .str am]
        else if config.fullAuto then [.str CODEX_CLI.FULL_AUTO]
        else [.str CODEX_CLI.APPROVAL, .str CODEX_CLI.ON_REQUEST]
     | none =>
        if config.fullAuto then [.str CODEX_CLI.FULL_AUTO]
        else [.str CODEX_CLI.APPROVAL, .str CODEX_CLI.ON_REQUEST])
  let sandboxMode :=
    match config.sandboxMode with
    | some sm => sm
    | none =>
        if config.sandbox = some true then CODEX_CLI.WORKSPACE_WRITE
        else CODEX_CLI.READ_ONLY
  let args := args ++ [.str CODEX_CLI.SANDBOX, .str sandboxMode]
  let args := args ++
    (match config.reasoningEffort with
     | some re => if re ≠ "" then [.undef, .str re] else []
     | none => [])
  args ++ [.str CODEX_CLI.JSON] ++ [.str CODEX_CLI.STDIN]

/-! ## Gemini CLI constants (`src/constants.ts`) -/

/-- `ERROR_MESSAGES.QUOTA_EXCEEDED`: the fixed provider quota-exhaustion
stderr signal. -/
def QUOTA_EXCEEDED : String :=
  "Quota exceeded for quota metric \x27Gemini 2.5 Pro Requests\x27"

namespace MODELS

/-- `MODELS.PRO`. -/
def PRO : String := "gemini-2.5-pro"

/-- `MODELS.FLASH`: the fallback-tier model. -/
def FLASH : String := "gemini-2.5-flash"

end MODELS

namespace STATUS_MESSAGES

/-- `STATUS_MESSAGES.FLASH_RETRY`. -/
def FLASH_RETRY : String := "⚡ Retrying with Gemini 2.5 Flash..."

/-- `STATUS_MESSAGES.FLASH_SUCCESS`. -/
def FLASH_SUCCESS : String := "✅ Flash model completed successfully"

end STATUS_MESSAGES

namespace CLI

/-- `CLI.FLAGS.MODEL`. -/
def MODEL : String := "-m"

/-- `CLI.FLAGS.SANDBOX`. -/
def SANDBOX : String := "-s"

/-- `CLI.FLAGS.PROMPT`. -/
def PROMPT : String := "-p"

/-- `CLI.FLAGS.ALLOWED_TOOLS`. -/
def ALLOWED_TOOLS : String := "--allowed-tools"

end CLI

/-! ## Change-mode instruction templates
(`src/utils/changeModeInstructions.ts`) -/

/-- `getChangeModeInstructionsCondensed(prompt)` — the Codex backend's
change-mode preamble (braces written as escapes). -/
def getChangeModeInstructionsCondensed (prompt : String) : String :=
  "\n[CHANGEMODE INSTRUCTIONS]\nYou are generating code modifications. " ++
  "Output changes in a structured format that can be applied " ++
  "programmatically.\n\nOUTPUT FORMAT (follow exactly):\n" ++
  "**FILE: [filename]:[line_number]**\n```\nOLD:\n" ++
  "[exact code to be replaced]\nNEW:\n[new code to insert]\n```\n\n" ++
  "REQUIREMENTS:\n1. The OLD section must match the file content EXACTLY\n" ++
  "2. Include enough context to make the match unique\n" ++
  "3. Provide complete, functional replacement code\n\n" ++
  "USER REQUEST:\n" ++ prompt ++ "\n"

/-- `getChangeModeInstructions(prompt)` — the Gemini backend's full
change-mode preamble. -/
def getChangeModeInstructions (prompt : String) : String :=
  "\n[CHANGEMODE INSTRUCTIONS]\nYou are generating code modifications " ++
  "that will be processed by an automated system. The output format is " ++
  "critical because it enables programmatic application of changes " ++
  "without human intervention.\n\nINSTRUCTIONS:\n" ++
  "1. Analyze each provided file thoroughly\n" ++
  "2. Identify locations requiring changes based on the user request\n" ++
  "3. For each change, output in the exact format specified\n" ++
  "4. The OLD section must be EXACTLY what appears in the file " ++
  "(copy-paste exact match)\n" ++
  "5. Provide complete, directly replacing code blocks\n" ++
  "6. Verify line numbers are accurate\n\nCRITICAL REQUIREMENTS:\n" ++
  "1. Output edits in the EXACT format specified below - no deviations\n" ++
  "2. The OLD string MUST be findable with Ctrl+F - it must be a unique, " ++
  "exact match\n" ++
  "3. Include enough surrounding lines to make the OLD string unique\n" ++
  "4. If a string appears multiple times (like </div>), include enough " ++
  "context lines above and below to make it unique\n" ++
  "5. Copy the OLD content EXACTLY as it appears - including all " ++
  "whitespace, indentation, line breaks\n" ++
  "6. Never use partial lines - always include complete lines from start " ++
  "to finish\n\nOUTPUT FORMAT (follow exactly):\n" ++
  "**FILE: [filename]:[line_number]**\n```\nOLD:\n" ++
  "[exact code to be replaced - must match file content precisely]\nNEW:\n" ++
  "[new code to insert - complete and functional]\n```\n\n" ++
  "EXAMPLE 1 - Simple unique match:\n**FILE: src/utils/helper.js:100**\n" ++
  "```\nOLD:\nfunction getMessage() \x7b\n  return \"Hello World\";\n\x7d\n" ++
  "NEW:\nfunction getMessage() \x7b\n  return \"Hello Universe!\";\n\x7d\n" ++
  "```\n\nEXAMPLE 2 - Common tag needing context:\n" ++
  "**FILE: index.html:245**\n```\nOLD:\n        </div>\n      </div>\n" ++
  "    </section>\nNEW:\n        </div>\n      </footer>\n" ++
  "    </section>\n```\n\nIMPORTANT: The OLD section must be an EXACT " ++
  "copy from the file that can be found with Ctrl+F!\n\n" ++
  "USER REQUEST:\n" ++ prompt ++ "\n"

/-! ## Gemini backend — `src/backends/gemini.ts` -/

/-- One replacement attempt of the change-mode `file:` regex (a literal
`file:` followed by a non-empty run of non-whitespace, replaced by `@` and
the run), applied globally (fuel-indexed: each step consumes input). -/
def replaceFileColonAux (fuel : Nat) (cs : List Char) : List Char :=
  match fuel with
  | 0 => cs
  | fuel + 1 =>
    match cs with
    | [] => []
    | c :: rest =>
        match cs with
        | 'f' :: 'i' :: 'l' :: 'e' :: ':' :: rest2 =>
            let run := rest2.takeWhile (fun d => !(isJsSpace d))
            if run.isEmpty then c :: replaceFileColonAux fuel rest
            else '@' :: (run ++ replaceFileColonAux fuel (rest2.drop run.length))
        | _ => c :: replaceFileColonAux fuel rest

/-- `prompt.replace` with the `file:` regex and replacement `@` + group. -/
def jsReplaceFileColon (s : String) : String :=
  ⟨replaceFileColonAux s.length s.toList⟩

/-- `GeminiBackend.applyChangeModeInstructions` (lines 134–137). -/
def GeminiBackend.applyChangeModeInstructions (prompt : String) : String :=
  getChangeModeInstructions (jsReplaceFileColon prompt)

/-- `GeminiBackend.buildArgs` (lines 106–132): optional model flag,
optional sandbox flag, repeated allowed-tool flags, then the prompt as the
final `-p` value, quoted when it contains `@` and is not already quoted. -/
def GeminiBackend.buildArgs (prompt : String) (config : BackendConfig) :
    List String :=
  let args : List String :=
    match config.model with
    | some m => if m ≠ "" then [CLI.MODEL, m] else []
    | none => []
  let args := args ++ (if config.sandbox = some true then [CLI.SANDBOX] else [])
  let args := args ++
    (config.allowedTools.map (fun tool => [CLI.ALLOWED_TOOLS, tool])).flatten
  let finalPrompt :=
    if jsIncludes prompt "@" && !(strStartsWith prompt "\"") then
      "\"" ++ prompt ++ "\""
    else prompt
  args ++ [CLI.PROMPT, finalPrompt]

/-- The invalid-model error message shared by both backends. -/
def INVALID_MODEL_ERROR : String :=
  "Invalid model name: model cannot start with \x27-\x27"

/-- `GeminiBackend.execute` (`src/backends/gemini.ts` lines 20–78).  The
subprocess boundary (`executeCommand`, which spawns the CLI and resolves
the trimmed stdout or rejects with the command failure) is the `runner`
argument.  The second component collects the messages `execute` itself
delivers to the progress sink. -/
def GeminiBackend.execute (prompt : String) (config : BackendConfig)
    (runner : List String → Except String String) :
    Except String BackendResult × List String :=
  if jsTruthyStr config.model &&
      (strStartsWith (config.model.getD "") "-") then
    (.error INVALID_MODEL_ERROR, [])
  else
    let processedPrompt :=
      if config.changeMode then GeminiBackend.applyChangeModeInstructions prompt
      else prompt
    let usedModel := config.model
    let args := GeminiBackend.buildArgs processedPrompt config
    match runner args with
    | .ok response =>
        (.ok { response := response, backend := "gemini", model := usedModel },
         [])
    | .error errorMessage =>
        if jsIncludes errorMessage QUOTA_EXCEEDED &&
            config.model ≠ some MODELS.FLASH then
          let fallbackConfig := { config with model := some MODELS.FLASH }
          let fallbackArgs := GeminiBackend.buildArgs processedPrompt
            fallbackConfig
          match runner fallbackArgs with
          | .ok response =>
              (.ok { response := response, backend := "gemini",
                     model := some MODELS.FLASH },
               [STATUS_MESSAGES.FLASH_RETRY, STATUS_MESSAGES.FLASH_SUCCESS])
          | .error fallbackErrorMessage =>
              (.error (MODELS.PRO ++ " quota exceeded, " ++ MODELS.FLASH ++
                 " fallback also failed: " ++ fallbackErrorMessage),
               [STATUS_MESSAGES.FLASH_RETRY])
        else (.error errorMessage, [])

/-! ## Codex backend execute — `dist/backends/codex.js` lines 18–39 -/

/-- `CodexBackend.execute` from the compiled JavaScript.  The subprocess
boundary (`executeCommand`: spawn with the argument vector, write the prompt
to stdin, capture stdout under the output-size cap, reject on non-zero exit)
is the `runner` argument; on success the captured stdout is decoded by
`parseJsonOutput`. -/
def CodexBackendDist.execute (prompt : String) (config : BackendConfig)
    (fs : FSModel) (procCwd : NPath)
    (runner : List JSArg → String → Except String String) :
    Except String BackendResult :=
  if jsTruthyStr config.model &&
      (strStartsWith (config.model.getD "") "-") then
    .error INVALID_MODEL_ERROR
  else
    let processedPrompt := translateFileRefs fs config.cwd procCwd prompt
    let finalPrompt :=
      if config.changeMode then getChangeModeInstructionsCondensed
        processedPrompt
      else processedPrompt
    let args := CodexBackendDist.buildArgs config
    match runner args finalPrompt with
    | .error e => .error e
    | .ok stdout =>
        let result := parseJsonOutput stdout
        .ok { response := result.response
              backend := "codex"
              model := some ((config.model).getD CODEX_MODELS_DEFAULT)
              codexThreadId := result.threadId }

/-! ## Filesystem agreement (for the inliner noninterference property) -/

/-- Two model filesystems that have identical structure (existence, symlink
resolution, kinds, directory listings) and agree on the size and content of
every file whose canonical path lies within the canonical workspace `wd` —
i.e. they may differ arbitrarily in the content (and size) of
outside-workspace files. -/
def FSAgree (wd : NPath) (fs1 fs2 : FSModel) : Prop :=
  fs1.access = fs2.access ∧ fs1.realp = fs2.realp ∧ fs1.isDir = fs2.isDir ∧
  fs1.dirEntries = fs2.dirEntries ∧
  ∀ p, isPathWithinWorkspace p wd = true →
    fs1.size p = fs2.size p ∧ fs1.content p = fs2.content p

/-! # Theorems for the specification claims -/

/-- C7: for the fixed JSONL input with one `thread.started` event carrying
`thread_id` `"thread-123"`, two `item.agent_message` events carrying the
texts `"FIRST_OK"` and `"SECOND_OK"`, and an interspersed non-message event,
the Codex decoder returns `threadId = "thread-123"` and the response equal
to the two texts joined by a newline (and trimmed). -/
theorem C7_parseJsonOutput_fixture :
    parseJsonOutput
      ("\x7b\"type\":\"thread.started\",\"thread_id\":\"thread-123\"\x7d\n" ++
       "\x7b\"type\":\"item.agent_message\",\"content\":\"FIRST_OK\"\x7d\n" ++
       "\x7b\"type\":\"item.reasoning\",\"content\":\"thinking\"\x7d\n" ++
       "\x7b\"type\":\"item.agent_message\",\"content\":\"SECOND_OK\"\x7d") =
      { response := "FIRST_OK\nSECOND_OK"
        threadId := some (.str "thread-123") } := by
  rfl

/-- C1 (code bug): evaluated at the very configurations the repository's own
test suite checks (`tests/codex-backend.test.ts`), `CodexBackend.buildArgs`
emits the `exec` subcommand token *first* — before the approval, sandbox and
reasoning-effort flags — emits no `--config model_reasoning_effort="…"`
token at all, and for a resume thread id emits a standalone `resume <id>`
with no adjacent `exec`; the compiled `dist` variant starts with the same
standalone `resume` token. -/
theorem C1_buildArgs_subcommand_first_code_bug :
    (CodexBackend.buildArgs
      { provider := "codex", model := some "gpt-5.3-codex"
        approvalMode := some "on-request", sandboxMode := some "workspace-write"
        reasoningEffort := some "high" } =
      ["exec", "-m", "gpt-5.3-codex", "-a", "on-request", "-s",
       "workspace-write", "--reasoning-effort", "high", "--json", "-"]) ∧
    (CodexBackend.buildArgs
      { provider := "codex", sandboxMode := some "read-only"
        codexThreadId := some "019c3757-792b-71a0-aff8-4ac94c1cde2f" } =
      ["resume", "019c3757-792b-71a0-aff8-4ac94c1cde2f", "-a", "on-request",
       "-s", "workspace-write", "--json", "-"]) ∧
    ((CodexBackend.buildArgs
      { provider := "codex", model := some "gpt-5.3-codex"
        approvalMode := some "on-request", sandboxMode := some "workspace-write"
        reasoningEffort := some "high" }).contains "--config" = false) ∧
    ((CodexBackend.buildArgs
      { provider := "codex", sandboxMode := some "read-only"
        codexThreadId := some "019c3757-792b-71a0-aff8-4ac94c1cde2f"
        }).contains "exec" = false) ∧
    ((CodexBackendDist.buildArgs
      { provider := "codex", sandboxMode := some "read-only"
        codexThreadId := some "019c3757-792b-71a0-aff8-4ac94c1cde2f"
        }).head? = some (.str "resume")) := by
  refine ⟨by decide, by decide, by decide, by decide, by decide⟩

/-- C6 (counterexample): for two git states on the *same* branch with
*different* commits, the continuation check does **not** permit continuation
(`canContinue` is `false`), contradicting the claim's middle case. -/
theorem C6_counterexample_same_branch_diff_commit :
    detectSessionContinuation
      { branch := "main", commitHash := "1111111122223333", workingTreeClean := true
        timestamp := 0 }
      { branch := "main", commitHash := "4444444455556666", workingTreeClean := true
        timestamp := 0 } =
    { canContinue := false
      reason := some "Git state changed: commit 44444444 → 11111111" } := by
  decide

/-- C6 (amended): the continuation check classifies as follows — identical
branch and commit yields silent continuation (`canContinue = true`, no
warning); same branch but a different commit yields `canContinue = false`
together with a commit-change warning (the caller surfaces the warning and
may still continue); a different branch yields `canContinue = false`
together with a branch-change warning. -/
theorem C6_detectSessionContinuation_classification (cur ses : GitState) :
    (cur.branch = ses.branch ∧ cur.commitHash = ses.commitHash →
      detectSessionContinuation cur ses = { canContinue := true, reason := none }) ∧
    (cur.branch = ses.branch ∧ cur.commitHash ≠ ses.commitHash →
      detectSessionContinuation cur ses =
        { canContinue := false
          reason := some ("Git state changed: commit " ++
            strTake ses.commitHash 8 ++ " → " ++ strTake cur.commitHash 8) }) ∧
    (cur.branch ≠ ses.branch →
      detectSessionContinuation cur ses =
        { canContinue := false
          reason := some ("Branch changed: " ++ ses.branch ++ " → " ++
            cur.branch) }) := by
  unfold detectSessionContinuation
  refine ⟨fun h => ?_, fun h => ?_, fun h => ?_⟩
  · simp [h.1, h.2]
  · simp [h.1, h.2]
  · simp [h]

/-- C6 (witness): the amended classification at concrete git states. -/
theorem C6_classification_witness :
    (detectSessionContinuation
      { branch := "main", commitHash := "aaaa", workingTreeClean := true, timestamp := 0 }
      { branch := "main", commitHash := "aaaa", workingTreeClean := false, timestamp := 1 } =
      { canContinue := true, reason := none }) ∧
    (detectSessionContinuation
      { branch := "main", commitHash := "1111111122223333", workingTreeClean := true, timestamp := 0 }
      { branch := "main", commitHash := "4444444455556666", workingTreeClean := true, timestamp := 0 } =
      { canContinue := false
        reason := some "Git state changed: commit 44444444 → 11111111" }) ∧
    (detectSessionContinuation
      { branch := "feat", commitHash := "aaaa", workingTreeClean := true, timestamp := 0 }
      { branch := "main", commitHash := "aaaa", workingTreeClean := true, timestamp := 0 } =
      { canContinue := false
        reason := some "Branch changed: main → feat" }) := by
  refine ⟨(C6_detectSessionContinuation_classification _ _).1 ⟨rfl, rfl⟩,
    ?_, ?_⟩
  · have h := (C6_detectSessionContinuation_classification
      { branch := "main", commitHash := "1111111122223333", workingTreeClean := true, timestamp := 0 }
      { branch := "main", commitHash := "4444444455556666", workingTreeClean := true, timestamp := 0 }).2.1
      ⟨rfl, by decide⟩
    exact h
  · have h := (C6_detectSessionContinuation_classification
      { branch := "feat", commitHash := "aaaa", workingTreeClean := true, timestamp := 0 }
      { branch := "main", commitHash := "aaaa", workingTreeClean := true, timestamp := 0 }).2.2
      (by decide)
    exact h


/-! ### Sanitizer lemmas (for claim C9) -/

/-- Characters of the hyphen-collapsed list come from the input. -/
theorem collapseHyphens_subset {c : Char} :
    ∀ l : List Char, c ∈ collapseHyphens l → c ∈ l := by
  intro l
  induction l using collapseHyphens.induct with
  | case1 => simp [collapseHyphens]
  | case2 d => simp [collapseHyphens]
  | case3 a b rest h ih =>
      simp only [collapseHyphens, if_pos h]
      exact fun hm => List.mem_cons_of_mem _ (ih hm)
  | case4 a b rest h ih =>
      simp only [collapseHyphens, if_neg h]
      intro hm
      rcases List.mem_cons.mp hm with h1 | h1
      · exact h1 ▸ List.mem_cons_self _ _
      · exact List.mem_cons_of_mem _ (ih h1)

/-- When its head is not a hyphen, collapsing keeps the head. -/
theorem collapseHyphens_head {b : Char} (hb : b ≠ '-') (rest : List Char) :
    (collapseHyphens (b :: rest)).head? = some b := by
  cases rest with
  | nil => simp [collapseHyphens]
  | cons c rest' =>
      simp only [collapseHyphens]
      have : (b = '-' && c = '-') = false := by
        simp [hb]
      rw [this]
      simp

/-- The collapsed list has no two adjacent hyphens. -/
theorem collapseHyphens_chain :
    ∀ l : List Char,
      List.Chain' (fun a b => ¬(a = '-' ∧ b = '-')) (collapseHyphens l) := by
  intro l
  induction l using collapseHyphens.induct with
  | case1 => simp [collapseHyphens]
  | case2 d => simp [collapseHyphens]
  | case3 a b rest h ih =>
      simp only [collapseHyphens]
      rw [if_pos h]
      exact ih
  | case4 a b rest h ih =>
      simp only [collapseHyphens, if_neg h]
      rw [List.chain'_cons']
      refine ⟨?_, ih⟩
      intro y hy
      by_cases hb : b = '-'
      · have ha : a ≠ '-' := by
          intro ha
          exact h (by simp [ha, hb])
        exact fun hc => ha hc.1
      · rw [collapseHyphens_head hb rest] at hy
        cases hy
        exact fun hc => hb hc.2

/-- Collapsing is the identity on hyphen-free lists. -/
theorem collapseHyphens_of_no_hyphen :
    ∀ l : List Char, (∀ c ∈ l, c ≠ '-') → collapseHyphens l = l := by
  intro l
  induction l using collapseHyphens.induct with
  | case1 => simp [collapseHyphens]
  | case2 d => simp [collapseHyphens]
  | case3 a b rest h ih =>
      intro hall
      exact absurd (by simpa using h) (by simp [hall a (by simp), hall b (by simp)])
  | case4 a b rest h ih =>
      intro hall
      simp only [collapseHyphens, if_neg h]
      rw [ih (fun c hc => hall c (List.mem_cons_of_mem _ hc))]

/-- Edge-stripping yields an infix of its input. -/
theorem stripEdgeHyphens_isInfixOf (l : List Char) :
    stripEdgeHyphens l <:+: l := by
  unfold stripEdgeHyphens
  have h1 : l.dropWhile (· = '-') <:+ l := List.dropWhile_suffix _
  have h2 : ((l.dropWhile (· = '-')).reverse.dropWhile (· = '-')).reverse <+:
      l.dropWhile (· = '-') := by
    have h3 : ((l.dropWhile (· = '-')).reverse).dropWhile (· = '-') <:+
        (l.dropWhile (· = '-')).reverse := List.dropWhile_suffix _
    have h4 := List.reverse_prefix.mpr h3
    rwa [List.reverse_reverse] at h4
  exact h2.isInfix.trans h1.isInfix

/-- Edge-stripping is the identity on hyphen-free lists. -/
theorem stripEdgeHyphens_of_no_hyphen (l : List Char)
    (h : ∀ c ∈ l, c ≠ '-') : stripEdgeHyphens l = l := by
  unfold stripEdgeHyphens
  have h1 : l.dropWhile (· = '-') = l := by
    apply List.dropWhile_eq_self_iff.mpr
    cases l with
    | nil => simp
    | cons a rest => simpa using h a (by simp)
  rw [h1]
  have h2 : l.reverse.dropWhile (· = '-') = l.reverse := by
    apply List.dropWhile_eq_self_iff.mpr
    cases hrev : l.reverse with
    | nil => simp
    | cons a rest =>
        have : a ∈ l := by
          rw [← List.mem_reverse, hrev]
          simp
        simpa using h a this
  rw [h2, List.reverse_reverse]

/-- C9 (counterexample): sanitization does not cap the id length — a
150-character alphanumeric id passes through unchanged (longer than any cap,
in particular than the 100-character cap found elsewhere in the repository)
— and repeated underscores are not collapsed. -/
theorem C9_counterexample_no_length_cap :
    getSafeSessionId ⟨List.replicate 150 'a'⟩ = ⟨List.replicate 150 'a'⟩ ∧
    100 < (getSafeSessionId ⟨List.replicate 150 'a'⟩).length ∧
    getSafeSessionId "a__b" = "a__b" := by
  refine ⟨by decide, by decide, by decide⟩

/-- C9 (amended): both `load` and `save` resolve the session file name
through `getSafeSessionId` (so only the sanitized id determines the file),
and the sanitizer keeps only alphanumerics, hyphens and underscores,
collapses consecutive hyphens, never returns the empty string (falling back
to the fixed placeholder `"session"`), and applies **no length cap**: it is
the identity on non-empty ids made of allowed non-hyphen characters, of any
length. -/
theorem C9_getSafeSessionId_sanitization (sessionId : String) :
    getSessionFilePath sessionId = getSafeSessionId sessionId ++ ".json" ∧
    (∀ c ∈ (getSafeSessionId sessionId).toList, invalidIdChar c = false) ∧
    jsIncludes (getSafeSessionId sessionId) "--" = false ∧
    getSafeSessionId sessionId ≠ "" ∧
    ((∀ c ∈ sessionId.toList, invalidIdChar c = false ∧ c ≠ '-') →
      sessionId ≠ "" → getSafeSessionId sessionId = sessionId) ∧
    (∀ (α : Type) (cfg : SessionConfig) (st : SStore α) (now : Nat)
      (id2 : String), getSafeSessionId sessionId = getSafeSessionId id2 →
      SessionManager.load cfg st now sessionId =
        SessionManager.load cfg st now id2) := by
  refine ⟨rfl, ?_, ?_, ?_, ?_, ?_⟩
  · -- only allowed characters survive
    intro c hc
    unfold getSafeSessionId at hc
    by_cases hemp : (stripEdgeHyphens (collapseHyphens
        (sessionId.toList.map (fun c => if invalidIdChar c then '-' else c)))).isEmpty
    · simp only [hemp, if_true] at hc
      have hall : ∀ x ∈ "session".toList, invalidIdChar x = false := by decide
      exact hall c hc
    · simp only [hemp, if_false] at hc
      have h1 : c ∈ stripEdgeHyphens (collapseHyphens
          (sessionId.toList.map (fun c => if invalidIdChar c then '-' else c))) := hc
      have h2 := (stripEdgeHyphens_isInfixOf _).mem h1
      have h3 := collapseHyphens_subset _ h2
      rcases List.mem_map.mp h3 with ⟨a, _, ha⟩
      by_cases hia : invalidIdChar a
      · rw [if_pos hia] at ha
        rw [← ha]
        decide
      · rw [if_neg hia] at ha
        rw [← ha]
        exact eq_false_of_ne_true hia
  · -- no two adjacent hyphens
    unfold getSafeSessionId
    by_cases hemp : (stripEdgeHyphens (collapseHyphens
        (sessionId.toList.map (fun c => if invalidIdChar c then '-' else c)))).isEmpty
    · simp only [hemp, if_true]
      decide
    · simp only [hemp, if_false]
      unfold jsIncludes
      apply decide_eq_false
      intro hinf
      have hinf2 : ("--".toList : List Char) <:+:
          collapseHyphens (sessionId.toList.map
            (fun c => if invalidIdChar c then '-' else c)) :=
        hinf.trans (stripEdgeHyphens_isInfixOf _)
      have hch := List.Chain'.infix (collapseHyphens_chain
        (sessionId.toList.map (fun c => if invalidIdChar c then '-' else c)))
        hinf2
      rw [show ("--".toList : List Char) = ['-', '-'] from rfl] at hch
      rw [List.chain'_cons] at hch
      exact hch.1 ⟨rfl, rfl⟩
  · -- never empty
    simp only [getSafeSessionId]
    by_cases hemp : (stripEdgeHyphens (collapseHyphens
        (sessionId.toList.map (fun c => if invalidIdChar c then '-' else c)))).isEmpty
    · rw [if_pos hemp]
      decide
    · rw [if_neg hemp]
      intro hcontra
      apply hemp
      have hdata := congrArg String.data hcontra
      simp only at hdata
      simp only [List.isEmpty_iff]
      exact hdata
  · -- identity on safe hyphen-free ids of any length: no length cap
    intro hall hne
    have hmapgen : ∀ l : List Char, (∀ c ∈ l, invalidIdChar c = false) →
        l.map (fun c => if invalidIdChar c then '-' else c) = l := by
      intro l hl
      induction l with
      | nil => rfl
      | cons a t ih =>
          have ha := hl a (List.mem_cons_self a t)
          simp only [List.map_cons, ha, if_false, List.cons.injEq]
          exact ⟨rfl, ih (fun c hc => hl c (List.mem_cons_of_mem _ hc))⟩
    have hmap := hmapgen sessionId.toList (fun c hc => (hall c hc).1)
    have h1 : collapseHyphens sessionId.toList = sessionId.toList :=
      collapseHyphens_of_no_hyphen _ (fun c hc => (hall c hc).2)
    have h2 : stripEdgeHyphens sessionId.toList = sessionId.toList :=
      stripEdgeHyphens_of_no_hyphen _ (fun c hc => (hall c hc).2)
    have hne2 : sessionId.toList.isEmpty = false := by
      rcases hl : sessionId.toList with _ | _
      · exact absurd (by
          cases sessionId with
          | mk data => simpa using congrArg String.mk hl) hne
      · simp
    simp only [getSafeSessionId, hmap, h1, h2, hne2]
    rfl
  · -- the store consults only the sanitized id
    intro α cfg st now id2 h
    unfold SessionManager.load
    rw [h]

/-- C9 (witness): the sanitization theorem applied at concrete ids. -/
theorem C9_sanitization_witness :
    getSafeSessionId "abc_XYZ_0123456789" = "abc_XYZ_0123456789" ∧
    SessionManager.load ⟨1, 1, true⟩ (⟨[], []⟩ : SStore Nat) 0 "a!b" =
      SessionManager.load ⟨1, 1, true⟩ (⟨[], []⟩ : SStore Nat) 0 "a?b" := by
  refine ⟨(C9_getSafeSessionId_sanitization "abc_XYZ_0123456789").2.2.2.2.1
      (by decide) (by decide),
    (C9_getSafeSessionId_sanitization "a!b").2.2.2.2.2 Nat ⟨1, 1, true⟩
      ⟨[], []⟩ 0 "a?b" (by decide)⟩

/-- C10: a model name beginning with `-` makes both backends' `execute`
fail with the invalid-model error independently of the subprocess runner
(and, for Codex, of the filesystem): no argument vector is ever passed to a
subprocess, so the model field cannot inject CLI flags. -/
theorem C10_model_flag_injection_rejected (config : BackendConfig)
    (m : String) (hm : config.model = some m)
    (hdash : strStartsWith m "-" = true) :
    (∀ (prompt : String) (runner : List String → Except String String),
      GeminiBackend.execute prompt config runner =
        (.error INVALID_MODEL_ERROR, [])) ∧
    (∀ (prompt : String) (fs : FSModel) (procCwd : NPath)
      (runner : List JSArg → String → Except String String),
      CodexBackendDist.execute prompt config fs procCwd runner =
        .error INVALID_MODEL_ERROR) := by
  have hne : m ≠ "" := by
    intro h
    rw [h] at hdash
    exact absurd hdash (by decide)
  have hguard : (jsTruthyStr config.model &&
      strStartsWith (config.model.getD "") "-") = true := by
    rw [hm]
    simp only [jsTruthyStr, Option.getD_some, hdash, Bool.and_true]
    simpa using hne
  constructor
  · intro prompt runner
    unfold GeminiBackend.execute
    rw [hguard]
    rfl
  · intro prompt fs procCwd runner
    unfold CodexBackendDist.execute
    rw [hguard]
    rfl

/-- C10 (witness): a concrete injection attempt (`model = "--full-auto"`)
is rejected by both backends before any subprocess interaction. -/
theorem C10_injection_witness :
    GeminiBackend.execute "hi"
      { provider := "gemini", model := some "--full-auto" }
      (fun _ => .ok "ran") = (.error INVALID_MODEL_ERROR, []) ∧
    CodexBackendDist.execute "hi"
      { provider := "codex", model := some "--full-auto" }
      { access := fun _ => false, realp := fun _ => none
        isDir := fun _ => false, size := fun _ => 0
        content := fun _ => "", dirEntries := fun _ => [] } []
      (fun _ _ => .ok "ran") = .error INVALID_MODEL_ERROR := by
  have h := C10_model_flag_injection_rejected
    { provider := "gemini", model := some "--full-auto" } "--full-auto"
    rfl (by decide)
  have h2 := C10_model_flag_injection_rejected
    { provider := "codex", model := some "--full-auto" } "--full-auto"
    rfl (by decide)
  exact ⟨h.1 "hi" (fun _ => .ok "ran"), h2.2 "hi" _ [] (fun _ _ => .ok "ran")⟩

/-- C8: when the first Gemini invocation fails with the fixed quota-exceeded
stderr signal and the requested model is not already the Flash fallback, the
adapter retries exactly once with the Flash model, reporting the
substitution through the progress sink; a successful retry yields a result
whose `model` field is the fallback model, and a failing retry yields a
composite error naming the quota failure and embedding the fallback
failure. -/
theorem C8_gemini_quota_fallback (prompt : String) (config : BackendConfig)
    (runner : List String → Except String String) (e : String)
    (hvalid : (jsTruthyStr config.model &&
      strStartsWith (config.model.getD "") "-") = false)
    (hnotflash : config.model ≠ some MODELS.FLASH)
    (hfail : runner (GeminiBackend.buildArgs
      (if config.changeMode then GeminiBackend.applyChangeModeInstructions prompt
       else prompt) config) = .error e)
    (hquota : jsIncludes e QUOTA_EXCEEDED = true) :
    (∀ r, runner (GeminiBackend.buildArgs
        (if config.changeMode then GeminiBackend.applyChangeModeInstructions
          prompt else prompt)
        { config with model := some MODELS.FLASH }) = .ok r →
      GeminiBackend.execute prompt config runner =
        (.ok { response := r, backend := "gemini", model := some MODELS.FLASH },
         [STATUS_MESSAGES.FLASH_RETRY, STATUS_MESSAGES.FLASH_SUCCESS])) ∧
    (∀ e2, runner (GeminiBackend.buildArgs
        (if config.changeMode then GeminiBackend.applyChangeModeInstructions
          prompt else prompt)
        { config with model := some MODELS.FLASH }) = .error e2 →
      GeminiBackend.execute prompt config runner =
        (.error (MODELS.PRO ++ " quota exceeded, " ++ MODELS.FLASH ++
           " fallback also failed: " ++ e2),
         [STATUS_MESSAGES.FLASH_RETRY])) := by
  constructor
  · intro r hok
    unfold GeminiBackend.execute
    rw [hvalid]
    simp only [Bool.false_eq_true, if_false, hfail, hquota, hok]
    simp [hnotflash]
  · intro e2 herr
    unfold GeminiBackend.execute
    rw [hvalid]
    simp only [Bool.false_eq_true, if_false, hfail, hquota, herr]
    simp [hnotflash]

/-- C8 (witness): the quota-fallback theorem at a concrete configuration and
runners (one whose Flash retry succeeds, one whose retry fails too). -/
theorem C8_quota_fallback_witness :
    GeminiBackend.execute "hi"
      { provider := "gemini", model := some "gemini-2.5-pro" }
      (fun args => if args.contains "gemini-2.5-flash" then .ok "answer"
        else .error ("boom: " ++ QUOTA_EXCEEDED)) =
      (.ok { response := "answer", backend := "gemini"
             model := some MODELS.FLASH },
       [STATUS_MESSAGES.FLASH_RETRY, STATUS_MESSAGES.FLASH_SUCCESS]) ∧
    GeminiBackend.execute "hi"
      { provider := "gemini", model := some "gemini-2.5-pro" }
      (fun args => if args.contains "gemini-2.5-flash" then .error "down"
        else .error ("boom: " ++ QUOTA_EXCEEDED)) =
      (.error (MODELS.PRO ++ " quota exceeded, " ++ MODELS.FLASH ++
         " fallback also failed: down"),
       [STATUS_MESSAGES.FLASH_RETRY]) := by
  constructor
  · exact (C8_gemini_quota_fallback "hi"
      { provider := "gemini", model := some "gemini-2.5-pro" }
      (fun args => if args.contains "gemini-2.5-flash" then .ok "answer"
        else .error ("boom: " ++ QUOTA_EXCEEDED))
      ("boom: " ++ QUOTA_EXCEEDED) (by decide) (by decide) rfl
      (by decide)).1 "answer" rfl
  · exact (C8_gemini_quota_fallback "hi"
      { provider := "gemini", model := some "gemini-2.5-pro" }
      (fun args => if args.contains "gemini-2.5-flash" then .error "down"
        else .error ("boom: " ++ QUOTA_EXCEEDED))
      ("boom: " ++ QUOTA_EXCEEDED) (by decide) (by decide) rfl
      (by decide)).2 "down" rfl

/-! ### Session-store lemmas (claims C2–C4) -/

/-- Looking up a file right after writing it finds the written body with the
write time as `mtimeMs`. -/
theorem SDir.lookup_write_self {α} (d : SDir α) (n : String) (b : FileBody α)
    (now : Nat) : ∃ bt, SDir.lookup (SDir.write d n b now) n =
      some { body := b, birthtimeMs := bt, mtimeMs := now } := by
  induction d with
  | nil =>
      refine ⟨now, ?_⟩
      simp [SDir.write, SDir.lookup]
  | cons p rest ih =>
      by_cases hp : p.1 = n
      · refine ⟨p.2.birthtimeMs, ?_⟩
        simp [SDir.write, SDir.lookup, hp]
      · rcases ih with ⟨bt, hbt⟩
        refine ⟨bt, ?_⟩
        simpa [SDir.write, SDir.lookup, hp, List.find?] using hbt

/-- A file name is absent exactly when no entry carries it. -/
theorem SDir.lookup_eq_none_iff {α} (d : SDir α) (n : String) :
    SDir.lookup d n = none ↔ ∀ p ∈ d, ¬(p.1 = n) := by
  simp [SDir.lookup, List.find?_eq_none, Option.map_eq_none']

/-- Unlinking removes the file. -/
theorem SDir.lookup_unlink_self {α} (d : SDir α) (n : String) :
    SDir.lookup (SDir.unlink d n) n = none := by
  rw [SDir.lookup_eq_none_iff]
  intro p hp
  have := List.of_mem_filter hp
  simpa using this

/-- Filtering a directory cannot make an absent file appear. -/
theorem SDir.lookup_filter_none {α} (d : SDir α) (n : String)
    (q : String × FileRec α → Bool) (h : SDir.lookup d n = none) :
    SDir.lookup (d.filter q) n = none := by
  rw [SDir.lookup_eq_none_iff] at h ⊢
  exact fun p hp => h p (List.mem_of_mem_filter hp)

/-- C3: loading a stored session whose expiry has passed returns absence and
deletes the underlying session file (there is no in-memory cache: every
load re-reads the store, so the expired record is absent for all callers
afterwards). -/
theorem C3_load_expired_deletes (α : Type) (cfg : SessionConfig)
    (st : SStore α) (now : Nat) (id : String) (r : FileRec α)
    (entry : SessionCacheEntry α)
    (hlook : SDir.lookup st.primary (getSafeSessionId id ++ ".json") = some r)
    (hbody : r.body = .ok entry)
    (hexp : now > entry.expiryTime) :
    (SessionManager.load cfg st now id).1 = none ∧
    SDir.lookup ((SessionManager.load cfg st now id).2).primary
      (getSafeSessionId id ++ ".json") = none := by
  simp only [SessionManager.load, hlook, Option.isSome_some, if_true, hbody,
    if_pos hexp, cleanExpiredSessions]
  refine ⟨trivial, ?_⟩
  exact SDir.lookup_filter_none _ _ _ (SDir.lookup_unlink_self _ _)

/-- C3 (witness): an expired record at a concrete store. -/
theorem C3_expired_witness :
    (SessionManager.load ⟨10, 5, true⟩
      (⟨[("s1.json",
          { body := FileBody.ok
              { data := { sessionId := "s1", createdAt := 1,
                          lastAccessedAt := 1, payload := (0 : Nat) },
                timestamp := 1, expiryTime := 11 },
            birthtimeMs := 1, mtimeMs := 1 })], []⟩ : SStore Nat)
      12 "s1").1 = none ∧
    SDir.lookup ((SessionManager.load ⟨10, 5, true⟩
      (⟨[("s1.json",
          { body := FileBody.ok
              { data := { sessionId := "s1", createdAt := 1,
                          lastAccessedAt := 1, payload := (0 : Nat) },
                timestamp := 1, expiryTime := 11 },
            birthtimeMs := 1, mtimeMs := 1 })], []⟩ : SStore Nat)
      12 "s1").2).primary (getSafeSessionId "s1" ++ ".json") = none := by
  exact C3_load_expired_deletes Nat ⟨10, 5, true⟩ _ 12 "s1"
    { body := FileBody.ok
        { data := { sessionId := "s1", createdAt := 1,
                    lastAccessedAt := 1, payload := (0 : Nat) },
          timestamp := 1, expiryTime := 11 },
      birthtimeMs := 1, mtimeMs := 1 }
    { data := { sessionId := "s1", createdAt := 1,
                lastAccessedAt := 1, payload := (0 : Nat) },
      timestamp := 1, expiryTime := 11 }
    (by decide) rfl (by decide)

/-- C2: saving a record and then loading the same id (no intervening
operations, store below the cleanup threshold, before expiry) returns the
saved record except for the refreshed `lastAccessedAt` (the load time under
LRU, the save time — refreshed by `save` itself — under FIFO). -/
theorem C2_save_then_load (α : Type) (cfg : SessionConfig) (st : SStore α)
    (saveNow loadNow : Nat) (id : String) (data : SData α)
    (hid : data.sessionId = id)
    (hcreated : data.createdAt ≠ 0)
    (hcount : 5 * getSessionCountFast st < 4 * cfg.maxSessions)
    (hfresh : ¬ loadNow > saveNow + cfg.ttl) :
    (SessionManager.load cfg (SessionManager.save cfg st saveNow id data)
      loadNow id).1 =
      some { data with
        lastAccessedAt := if cfg.evictionPolicy then loadNow else saveNow } := by
  have hth : atCleanupThreshold (getSessionCountFast st) cfg.maxSessions
      = false := by
    simp only [atCleanupThreshold, decide_eq_false_iff_not]
    omega
  have hnmax : ¬ getSessionCountFast st ≥ cfg.maxSessions := by omega
  simp only [SessionManager.save, hth, Bool.false_eq_true, if_false,
    if_neg hnmax, getSessionFilePath]
  obtain ⟨bt, hbt⟩ := SDir.lookup_write_self st.primary
    (getSessionFilePath id)
    (FileBody.ok
      { data := { data with
          sessionId := id
          createdAt := if data.createdAt = 0 then saveNow else data.createdAt
          lastAccessedAt := saveNow }
        timestamp := saveNow
        expiryTime := saveNow + cfg.ttl }) saveNow
  simp only [getSessionFilePath] at hbt
  simp only [SessionManager.load, hbt, Option.isSome_some, if_true,
    if_neg hfresh]
  cases hpol : cfg.evictionPolicy with
  | true => simp [hid, if_neg hcreated]
  | false => simp [hid, if_neg hcreated]

/-- C2 (witness): save-then-load round trip at a concrete record. -/
theorem C2_witness :
    (SessionManager.load ⟨100, 5, true⟩
      (SessionManager.save ⟨100, 5, true⟩ (⟨[], []⟩ : SStore Nat) 50 "sess-1"
        { sessionId := "sess-1", createdAt := 7, lastAccessedAt := 3
          payload := 42 })
      60 "sess-1").1 =
      some { sessionId := "sess-1", createdAt := 7, lastAccessedAt := 60
             payload := 42 } := by
  exact C2_save_then_load Nat ⟨100, 5, true⟩ ⟨[], []⟩ 50 60 "sess-1"
    { sessionId := "sess-1", createdAt := 7, lastAccessedAt := 3
      payload := 42 } rfl (by decide) (by decide) (by decide)

/-! ### Eviction lemmas (claim C4) -/

/-- Strings keep their suffix under concatenation. -/
theorem strEndsWith_append (a b : String) : strEndsWith (a ++ b) b = true := by
  unfold strEndsWith
  rw [List.isPrefixOf_iff_prefix]
  show b.data.reverse <+: (a.data ++ b.data).reverse
  rw [List.reverse_append]
  exact List.prefix_append _ _

/-- Writing a fresh file name appends it to the directory. -/
theorem SDir.write_fresh {α} (d : SDir α) (n : String) (b : FileBody α)
    (now : Nat) (h : ∀ p ∈ d, p.1 ≠ n) :
    SDir.write d n b now = d ++ [(n, { body := b, birthtimeMs := now, mtimeMs := now })] := by
  induction d with
  | nil => rfl
  | cons p rest ih =>
      have hp : p.1 ≠ n := h p (List.mem_cons_self _ _)
      simp only [SDir.write, if_neg hp, List.cons_append, List.cons.injEq,
        true_and]
      exact ih (fun q hq => h q (List.mem_cons_of_mem _ hq))

/-- The expiry sweep leaves a store of unexpired well-formed entries
unchanged. -/
theorem cleanExpiredSessions_id {α} (st : SStore α) (now : Nat)
    (h : ∀ p ∈ st.primary, ∃ e, p.2.body = .ok e ∧ ¬ now > e.expiryTime) :
    cleanExpiredSessions st now = st := by
  simp only [cleanExpiredSessions]
  have : st.primary.filter (fun p =>
      if strEndsWith p.1 ".json" then
        match p.2.body with
        | .ok e => !decide (now > e.expiryTime)
        | .corrupt => false
      else true) = st.primary := by
    apply List.filter_eq_self.mpr
    intro p hp
    rcases h p hp with ⟨e, he, hexp⟩
    rw [he]
    by_cases hj : strEndsWith p.1 ".json"
    · simp [hj, hexp]
    · simp [hj]
  rw [this]

/-- The session count of a directory whose file names all end in `.json`. -/
theorem getSessionCountFast_all_json {α} (st : SStore α)
    (h : ∀ p ∈ st.primary, strEndsWith p.1 ".json" = true) :
    getSessionCountFast st = st.primary.length := by
  unfold getSessionCountFast
  rw [List.filter_eq_self.mpr (fun p hp => h p hp)]

/-- Insertion sort leaves an already-sorted list unchanged. -/
theorem sortByKey_of_sorted {α} (key : α → Nat) :
    ∀ l : List α, List.Chain' (fun a b => key a ≤ key b) l →
      sortByKey key l = l := by
  intro l h
  induction l with
  | nil => rfl
  | cons x xs ih =>
      simp only [sortByKey]
      rw [ih h.tail]
      cases xs with
      | nil => rfl
      | cons y ys =>
          have hxy : key x ≤ key y := (List.chain'_cons.mp h).1
          simp [sortByKey.insertSorted, hxy]

/-- A present name with no duplicates resolves to its record. -/
theorem SDir.lookup_of_mem {α} (d : SDir α) (n : String) (r : FileRec α)
    (hmem : (n, r) ∈ d) (hnodup : (d.map Prod.fst).Nodup) :
    SDir.lookup d n = some r := by
  induction d with
  | nil => simp at hmem
  | cons p rest ih =>
      rcases List.mem_cons.mp hmem with h | h
      · rw [← h]
        simp [SDir.lookup, List.find?]
      · have hne : p.1 ≠ n := by
          intro hcontra
          have : n ∈ rest.map Prod.fst :=
            List.mem_map.mpr ⟨(n, r), h, rfl⟩
          rw [List.map_cons] at hnodup
          exact (List.nodup_cons.mp hnodup).1 (hcontra ▸ this)
        simp only [SDir.lookup, List.find?]
        rw [show (decide (p.1 = n)) = false from decide_eq_false hne]
        exact ih h ((List.nodup_cons.mp (List.map_cons _ _ _ ▸ hnodup)).2)

/-- While the store stays at or below `maxSessions`, a sequence of saves of
fresh ids appends one well-formed file per save and evicts nothing. -/
theorem saveAll_below_max {α} (cfg : SessionConfig)
    (dataOf : String → SData α) :
    ∀ (rest done : List (String × Nat)) (leg : SDir α),
    done.length + rest.length ≤ cfg.maxSessions →
    ((done ++ rest).map (fun p => getSafeSessionId p.1 ++ ".json")).Nodup →
    (∀ p ∈ done ++ rest, ∀ q ∈ done ++ rest, ¬ q.2 > p.2 + cfg.ttl) →
    saveAll cfg dataOf ⟨done.map (savedEntryFile cfg dataOf), leg⟩ rest =
      ⟨(done ++ rest).map (savedEntryFile cfg dataOf), leg⟩ := by
  intro rest
  induction rest with
  | nil =>
      intro done leg _ _ _
      simp [saveAll]
  | cons p rest' ih =>
      intro done leg hlen hnodup hexp
      have hcount : getSessionCountFast
          (⟨done.map (savedEntryFile cfg dataOf), leg⟩ : SStore α) =
          done.length := by
        rw [getSessionCountFast_all_json]
        · simp
        · intro q hq
          rcases List.mem_map.mp hq with ⟨x, _, hx⟩
          rw [← hx]
          exact strEndsWith_append _ _
      have hclean : cleanExpiredSessions
          (⟨done.map (savedEntryFile cfg dataOf), leg⟩ : SStore α) p.2 =
          ⟨done.map (savedEntryFile cfg dataOf), leg⟩ := by
        apply cleanExpiredSessions_id
        intro q hq
        rcases List.mem_map.mp hq with ⟨x, hxmem, hx⟩
        refine ⟨_, by rw [← hx]; rfl, ?_⟩
        show ¬ p.2 > x.2 + cfg.ttl
        exact hexp x (List.mem_append_left _ hxmem) p
          (List.mem_append_right _ (List.mem_cons_self _ _))
      have hfreshname : ∀ q ∈ done.map (savedEntryFile cfg dataOf),
          q.1 ≠ getSafeSessionId p.1 ++ ".json" := by
        intro q hq
        rcases List.mem_map.mp hq with ⟨x, hxmem, hx⟩
        intro hcontra
        have heq : getSafeSessionId x.1 ++ ".json" =
            getSafeSessionId p.1 ++ ".json" := by
          rw [show getSafeSessionId x.1 ++ ".json" =
            (savedEntryFile cfg dataOf x).1 from rfl, hx, hcontra]
        rw [List.map_append, List.map_cons, List.nodup_append] at hnodup
        have h1 : getSafeSessionId x.1 ++ ".json" ∈
            List.map (fun p => getSafeSessionId p.1 ++ ".json") done :=
          List.mem_map.mpr ⟨x, hxmem, rfl⟩
        exact hnodup.2.2 h1 (by rw [heq]; exact List.mem_cons_self _ _)
      have hstep : (if atCleanupThreshold done.length cfg.maxSessions then
          cleanExpiredSessions
            (⟨done.map (savedEntryFile cfg dataOf), leg⟩ : SStore α) p.2
          else ⟨done.map (savedEntryFile cfg dataOf), leg⟩) =
          ⟨done.map (savedEntryFile cfg dataOf), leg⟩ := by
        cases atCleanupThreshold done.length cfg.maxSessions
        · rfl
        · simpa using hclean
      have hmaxne : ¬ done.length ≥ cfg.maxSessions := by
        have := hlen
        simp only [List.length_cons] at this
        omega
      have hsave : SessionManager.save cfg
          (⟨done.map (savedEntryFile cfg dataOf), leg⟩ : SStore α) p.2 p.1
          (dataOf p.1) = ⟨(done ++ [p]).map (savedEntryFile cfg dataOf), leg⟩ := by
        simp only [SessionManager.save, hcount, hstep, if_neg hmaxne,
          getSessionFilePath]
        rw [SDir.write_fresh _ _ _ _ hfreshname]
        simp [savedEntryFile]
      show saveAll cfg dataOf _ (p :: rest') = _
      simp only [saveAll, List.foldl_cons]
      rw [hsave]
      have hres := ih (done ++ [p]) leg
        (by simp only [List.length_append, List.length_cons,
              List.length_nil] at hlen ⊢; omega)
        (by rw [List.append_assoc]; simpa using hnodup)
        (by
          intro a ha b hb
          rw [List.append_assoc, List.singleton_append] at ha hb
          exact hexp a ha b hb)
      simp only [saveAll] at hres
      rw [hres, List.append_assoc, List.singleton_append]

/-- With one file over the limit and policy timestamps ascending, the
eviction pass removes exactly the first (least-timestamp) file, under both
the LRU and the FIFO policy. -/
theorem enforceSessionLimits_evicts_first {α} (cfg : SessionConfig)
    (dataOf : String → SData α) (first : String × Nat)
    (tailPs : List (String × Nat)) (leg : SDir α)
    (hmax : cfg.maxSessions = tailPs.length)
    (hnodup : ((first :: tailPs).map
      (fun p => getSafeSessionId p.1 ++ ".json")).Nodup)
    (htimes : List.Chain' (fun a b => a.2 ≤ b.2) (first :: tailPs)) :
    enforceSessionLimits cfg
      ⟨(first :: tailPs).map (savedEntryFile cfg dataOf), leg⟩ =
      ⟨tailPs.map (savedEntryFile cfg dataOf), leg⟩ := by
  simp only [enforceSessionLimits]
  have hjson : ((first :: tailPs).map (savedEntryFile cfg dataOf)).filter
      (fun p => strEndsWith p.1 ".json") =
      (first :: tailPs).map (savedEntryFile cfg dataOf) := by
    apply List.filter_eq_self.mpr
    intro q hq
    rcases List.mem_map.mp hq with ⟨x, _, hx⟩
    rw [← hx]
    exact strEndsWith_append _ _
  rw [hjson]
  have hlen : ((first :: tailPs).map (savedEntryFile cfg dataOf)).length =
      tailPs.length + 1 := by simp
  rw [if_neg (by rw [hlen, hmax]; omega)]
  have hsorted : sortByKey
      (fun p => if cfg.evictionPolicy then p.2.mtimeMs else p.2.birthtimeMs)
      ((first :: tailPs).map (savedEntryFile cfg dataOf)) =
      (first :: tailPs).map (savedEntryFile cfg dataOf) := by
    apply sortByKey_of_sorted
    rw [List.chain'_map]
    apply htimes.imp
    intro a b h
    cases cfg.evictionPolicy <;> simpa [savedEntryFile] using h
  rw [hsorted, hlen, hmax]
  have htake : tailPs.length + 1 - tailPs.length = 1 := by omega
  rw [htake]
  simp only [List.map_cons, List.take_succ_cons, List.take_zero]
  have hname : ∀ q ∈ tailPs.map (savedEntryFile cfg dataOf),
      (savedEntryFile cfg dataOf first).1 ≠ q.1 := by
    intro q hq
    rcases List.mem_map.mp hq with ⟨x, hxmem, hx⟩
    rw [List.map_cons, List.nodup_cons] at hnodup
    intro hcontra
    apply hnodup.1
    rw [show (savedEntryFile cfg dataOf first).1 =
      getSafeSessionId first.1 ++ ".json" from rfl] at hcontra
    rw [hcontra, ← hx]
    exact List.mem_map.mpr ⟨x, hxmem, rfl⟩
  have hfirstdrop : (List.filter
      (fun p => !([(savedEntryFile cfg dataOf first)].any
        (fun q => q.1 = p.1)))
      ((savedEntryFile cfg dataOf first) ::
        tailPs.map (savedEntryFile cfg dataOf))) =
      tailPs.map (savedEntryFile cfg dataOf) := by
    rw [List.filter_cons_of_neg (by simp)]
    apply List.filter_eq_self.mpr
    intro q hq
    simpa using (hname q hq)
  rw [hfirstdrop]

/-- C4: starting from an empty store with `maxSessions = N`, saving `N + 1`
sessions with distinct sanitized ids at ascending times (all within one TTL
window) leaves exactly the `N` most recent ones loadable — the record with
the least policy timestamp (the first saved, under LRU as well as FIFO) has
been evicted. -/
theorem C4_eviction_keeps_n_most_recent (α : Type) (cfg : SessionConfig)
    (dataOf : String → SData α) (first last : String × Nat)
    (mid : List (String × Nat)) (lo hi tq : Nat)
    (hmax : cfg.maxSessions = mid.length + 1)
    (hnodup : (((first :: mid) ++ [last]).map
      (fun p => getSafeSessionId p.1 ++ ".json")).Nodup)
    (htimes : List.Chain' (fun a b => a.2 ≤ b.2) ((first :: mid) ++ [last]))
    (hwin : ∀ p ∈ (first :: mid) ++ [last], lo ≤ p.2 ∧ p.2 ≤ hi)
    (httl : hi ≤ lo + cfg.ttl)
    (htq : ¬ tq > lo + cfg.ttl) :
    (∀ p ∈ mid ++ [last],
      (SessionManager.load cfg
        (saveAll cfg dataOf ⟨[], []⟩ ((first :: mid) ++ [last])) tq p.1).1 ≠
        none) ∧
    (SessionManager.load cfg
      (saveAll cfg dataOf ⟨[], []⟩ ((first :: mid) ++ [last])) tq
      first.1).1 = none := by
  have hpair : ∀ p ∈ (first :: mid) ++ [last], ∀ q ∈ (first :: mid) ++ [last],
      ¬ q.2 > p.2 + cfg.ttl := by
    intro p hp q hq
    have h1 := (hwin p hp).1
    have h2 := (hwin q hq).2
    omega
  -- the first N saves fill the store without eviction
  have hfront : saveAll cfg dataOf ⟨[], []⟩ (first :: mid) =
      ⟨(first :: mid).map (savedEntryFile cfg dataOf), []⟩ := by
    have h := saveAll_below_max cfg dataOf (first :: mid) [] []
      (by simp [hmax])
      (by
        rw [List.map_append] at hnodup
        simpa using hnodup.of_append_left)
      (by
        intro p hp q hq
        simp only [List.nil_append] at hp hq
        exact hpair p (List.mem_append_left _ hp) q (List.mem_append_left _ hq))
    simpa using h
  -- the (N+1)-st save sweeps nothing, appends the new file, then evicts the
  -- least-timestamp file
  have hlast : SessionManager.save cfg
      (⟨(first :: mid).map (savedEntryFile cfg dataOf), []⟩ : SStore α)
      last.2 last.1 (dataOf last.1) =
      ⟨(mid ++ [last]).map (savedEntryFile cfg dataOf), []⟩ := by
    have hcount : getSessionCountFast
        (⟨(first :: mid).map (savedEntryFile cfg dataOf), []⟩ : SStore α) =
        mid.length + 1 := by
      rw [getSessionCountFast_all_json]
      · simp
      · intro q hq
        rcases List.mem_map.mp hq with ⟨x, _, hx⟩
        rw [← hx]
        exact strEndsWith_append _ _
    have hth : atCleanupThreshold (mid.length + 1) cfg.maxSessions = true := by
      simp only [atCleanupThreshold, hmax, decide_eq_true_eq]
      omega
    have hclean : cleanExpiredSessions
        (⟨(first :: mid).map (savedEntryFile cfg dataOf), []⟩ : SStore α)
        last.2 =
        ⟨(first :: mid).map (savedEntryFile cfg dataOf), []⟩ := by
      apply cleanExpiredSessions_id
      intro q hq
      rcases List.mem_map.mp hq with ⟨x, hxmem, hx⟩
      refine ⟨_, by rw [← hx]; rfl, ?_⟩
      show ¬ last.2 > x.2 + cfg.ttl
      exact hpair x (List.mem_append_left _ hxmem) last
        (List.mem_append_right _ (List.mem_cons_self _ _))
    have hfresh : ∀ q ∈ (first :: mid).map (savedEntryFile cfg dataOf),
        q.1 ≠ getSafeSessionId last.1 ++ ".json" := by
      intro q hq
      rcases List.mem_map.mp hq with ⟨x, hxmem, hx⟩
      intro hcontra
      rw [List.map_append, List.nodup_append] at hnodup
      apply hnodup.2.2 (List.mem_map.mpr ⟨x, hxmem, rfl⟩)
      show getSafeSessionId x.1 ++ ".json" ∈ _
      rw [show getSafeSessionId x.1 ++ ".json" =
        (savedEntryFile cfg dataOf x).1 from rfl, hx, hcontra]
      simp
    simp only [SessionManager.save, hcount, hth, if_true, hclean,
      getSessionFilePath,
      if_pos (show mid.length + 1 ≥ cfg.maxSessions by omega)]
    rw [SDir.write_fresh _ _ _ _ hfresh]
    have hA : (first :: mid).map (savedEntryFile cfg dataOf) ++
        [(getSafeSessionId last.1 ++ ".json",
          { body := FileBody.ok
              { data := { dataOf last.1 with
                  sessionId := last.1
                  createdAt := if (dataOf last.1).createdAt = 0 then last.2
                    else (dataOf last.1).createdAt
                  lastAccessedAt := last.2 }
                timestamp := last.2
                expiryTime := last.2 + cfg.ttl }
            birthtimeMs := last.2
            mtimeMs := last.2 })] =
        (first :: (mid ++ [last])).map (savedEntryFile cfg dataOf) := by
      simp [savedEntryFile]
    rw [hA]
    exact enforceSessionLimits_evicts_first cfg dataOf first (mid ++ [last])
      [] (by simp [hmax]) hnodup htimes
  have hfinal : saveAll cfg dataOf ⟨[], []⟩ ((first :: mid) ++ [last]) =
      ⟨(mid ++ [last]).map (savedEntryFile cfg dataOf), []⟩ := by
    have h1 := hfront
    simp only [saveAll] at h1 ⊢
    rw [List.foldl_append, h1]
    simp only [List.foldl_cons, List.foldl_nil]
    exact hlast
  have htailnodup : (((mid ++ [last]).map (savedEntryFile cfg dataOf)).map
      Prod.fst).Nodup := by
    rw [List.map_map]
    exact (List.nodup_cons.mp hnodup).2
  constructor
  · intro p hp
    have hmem : savedEntryFile cfg dataOf p ∈
        (mid ++ [last]).map (savedEntryFile cfg dataOf) :=
      List.mem_map.mpr ⟨p, hp, rfl⟩
    have hlook := SDir.lookup_of_mem
      ((mid ++ [last]).map (savedEntryFile cfg dataOf))
      (savedEntryFile cfg dataOf p).1 (savedEntryFile cfg dataOf p).2
      (by rw [Prod.mk.eta]; exact hmem) htailnodup
    have hpmem : p ∈ (first :: mid) ++ [last] := by
      rcases List.mem_append.mp hp with h | h
      · exact List.mem_append_left _ (List.mem_cons_of_mem _ h)
      · exact List.mem_append_right _ h
    have hp2 : ¬ tq > p.2 + cfg.ttl := by
      have hlo := (hwin p hpmem).1
      omega
    rw [hfinal]
    simp only [savedEntryFile] at hlook
    simp only [SessionManager.load, hlook, Option.isSome_some, if_true,
      if_neg hp2]
    cases cfg.evictionPolicy <;> simp
  · rw [hfinal]
    have hnone : SDir.lookup
        ((mid ++ [last]).map (savedEntryFile cfg dataOf))
        (getSafeSessionId first.1 ++ ".json") = none := by
      rw [SDir.lookup_eq_none_iff]
      intro q hq hcontra
      rcases List.mem_map.mp hq with ⟨x, hxmem, hx⟩
      apply (List.nodup_cons.mp hnodup).1
      rw [show (fun p => getSafeSessionId p.1 ++ ".json") first =
        getSafeSessionId first.1 ++ ".json" from rfl, ← hcontra, ← hx]
      exact List.mem_map.mpr ⟨x, hxmem, rfl⟩
    have hleg : SDir.lookup ([] : SDir α)
        (getSafeSessionId first.1 ++ ".json") = none := rfl
    simp only [SessionManager.load, hnone, hleg]

/-- C4 (witness): with `maxSessions = 2`, after saving three distinct ids at
ascending times the two most recent remain loadable and the first is gone. -/
theorem C4_eviction_witness :
    ((SessionManager.load ⟨1000, 2, true⟩
      (saveAll ⟨1000, 2, true⟩
        (fun id => { sessionId := id, createdAt := 1, lastAccessedAt := 1
                     payload := (0 : Nat) })
        ⟨[], []⟩ ((("a", 10) :: [("b", 11)]) ++ [("c", 12)])) 20 "b").1 ≠
      none) ∧
    ((SessionManager.load ⟨1000, 2, true⟩
      (saveAll ⟨1000, 2, true⟩
        (fun id => { sessionId := id, createdAt := 1, lastAccessedAt := 1
                     payload := (0 : Nat) })
        ⟨[], []⟩ ((("a", 10) :: [("b", 11)]) ++ [("c", 12)])) 20 "c").1 ≠
      none) ∧
    (SessionManager.load ⟨1000, 2, true⟩
      (saveAll ⟨1000, 2, true⟩
        (fun id => { sessionId := id, createdAt := 1, lastAccessedAt := 1
                     payload := (0 : Nat) })
        ⟨[], []⟩ ((("a", 10) :: [("b", 11)]) ++ [("c", 12)])) 20 "a").1 =
      none := by
  have h := C4_eviction_keeps_n_most_recent Nat ⟨1000, 2, true⟩
    (fun id => { sessionId := id, createdAt := 1, lastAccessedAt := 1
                 payload := (0 : Nat) })
    ("a", 10) ("c", 12) [("b", 11)] 10 12 20 rfl (by decide)
    (by simp [List.chain'_cons]) (by decide) (by decide) (by decide)
  exact ⟨h.1 ("b", 11) (by decide), h.1 ("c", 12) (by decide), h.2⟩

/-! ### Inliner noninterference lemmas (claim C5) -/

/-- One loop iteration of the inliner produces identical results on two
filesystems that agree inside the canonical workspace. -/
theorem processRef_agree {fs1 fs2 : FSModel} {canonWD : NPath}
    (hagree : FSAgree canonWD fs1 fs2) (lexWD : NPath) (st : TfState)
    (ref : String) :
    processRef fs1 lexWD canonWD st ref =
      processRef fs2 lexWD canonWD st ref := by
  obtain ⟨ha, hr, hd, he, hc⟩ := hagree
  simp only [processRef]
  rw [ha, hr, hd, he]
  by_cases c1 : st.processedRefs.contains ref = true
  · simp only [if_pos c1]
  simp only [if_neg c1]
  by_cases c2 : (!isPathWithinWorkspace (resolveStr lexWD (strDrop ref 1))
      lexWD) = true
  · simp only [if_pos c2]
  simp only [if_neg c2]
  by_cases c3 : (!fs2.access (resolveStr lexWD (strDrop ref 1))) = true
  · simp only [if_pos c3]
  simp only [if_neg c3]
  cases hrp : fs2.realp (resolveStr lexWD (strDrop ref 1)) with
  | none => rfl
  | some canonicalTargetPath =>
    by_cases c6 : (!isPathWithinWorkspace canonicalTargetPath canonWD) = true
    · simp only [if_pos c6]
    simp only [if_neg c6]
    by_cases c7 : st.processedTargets.contains canonicalTargetPath = true
    · simp only [if_pos c7]
    simp only [if_neg c7]
    by_cases c8 : fs2.isDir canonicalTargetPath = true
    · simp only [if_pos c8]
    simp only [if_neg c8]
    have hwithin : isPathWithinWorkspace canonicalTargetPath canonWD = true := by
      simpa using c6
    rw [(hc canonicalTargetPath hwithin).1, (hc canonicalTargetPath hwithin).2]

/-- Folding two pointwise-equal step functions gives equal results. -/
theorem foldl_congr_fun {β γ : Type} (f g : β → γ → β)
    (h : ∀ b c, f b c = g b c) :
    ∀ (l : List γ) (b : β), l.foldl f b = l.foldl g b := by
  intro l
  induction l with
  | nil => intro b; rfl
  | cons x xs ih =>
      intro b
      simp only [List.foldl_cons, h b x, ih]

/-- C5: (i) the inliner's output is identical on any two filesystems that
agree on the files inside the canonical workspace — so no byte of any
outside-workspace file (reached directly, via `..`, an absolute path or a
symlink) can influence the output; and (ii) a reference token whose lexical
resolution escapes the working directory is replaced, in place, by the
outside-workspace denial marker, with the filesystem untouched before the
substitution. -/
theorem C5_inliner_noninterference (cwd : Option String) (procCwd : NPath) :
    (∀ (fs1 fs2 : FSModel) (prompt : String),
      FSAgree (canonicalWorkDirOf fs1 cwd procCwd) fs1 fs2 →
      translateFileRefs fs1 cwd procCwd prompt =
        translateFileRefs fs2 cwd procCwd prompt) ∧
    (∀ (fs : FSModel) (st : TfState) (ref : String),
      st.processedRefs.contains ref = false →
      isPathWithinWorkspace (resolveStr (lexicalWorkDirOf cwd procCwd)
        (strDrop ref 1)) (lexicalWorkDirOf cwd procCwd) = false →
      processRef fs (lexicalWorkDirOf cwd procCwd)
        (canonicalWorkDirOf fs cwd procCwd) st ref =
        { st with
          translated := jsReplaceOnce st.translated ref
            (ACCESS_DENIED_OUTSIDE_WORKSPACE ++ " (" ++ strDrop ref 1 ++ ")")
          processedRefs := st.processedRefs ++ [ref] }) := by
  constructor
  · intro fs1 fs2 prompt hagree
    have hcw : canonicalWorkDirOf fs2 cwd procCwd =
        canonicalWorkDirOf fs1 cwd procCwd := by
      simp only [canonicalWorkDirOf, hagree.2.1]
    simp only [translateFileRefs, hcw]
    by_cases hrefs : (matchFileRefs prompt).isEmpty
    · simp only [hrefs, if_true]
    · simp only [hrefs, Bool.false_eq_true, if_false]
      rw [foldl_congr_fun _ _
        (fun st ref => processRef_agree hagree (lexicalWorkDirOf cwd procCwd)
          st ref)]
  · intro fs st ref h1 h2
    simp only [processRef, h1, Bool.false_eq_true, if_false, h2,
      Bool.not_false, if_true, substituteRef]

/-- C5 (witness): two concrete filesystems differing only in the content of
the outside-workspace file `/etc/secret` produce identical inliner output,
and the escaping token is replaced by the denial marker. -/
theorem C5_noninterference_witness :
    (translateFileRefs
      { access := fun p => p = ["w"] || p = ["w", "a.txt"] ||
          p = ["etc", "secret"]
        realp := fun p => if p = ["w"] || p = ["w", "a.txt"] ||
          p = ["etc", "secret"] then some p else none
        isDir := fun p => p = ["w"]
        size := fun p => if p = ["w", "a.txt"] then 5 else 9
        content := fun p => if p = ["w", "a.txt"] then "HELLO"
          else if p = ["etc", "secret"] then "TOPSECRET1" else ""
        dirEntries := fun _ => [] }
      (some "/w") ["proc"] "read @../etc/secret and @a.txt" =
    translateFileRefs
      { access := fun p => p = ["w"] || p = ["w", "a.txt"] ||
          p = ["etc", "secret"]
        realp := fun p => if p = ["w"] || p = ["w", "a.txt"] ||
          p = ["etc", "secret"] then some p else none
        isDir := fun p => p = ["w"]
        size := fun p => if p = ["w", "a.txt"] then 5 else 9
        content := fun p => if p = ["w", "a.txt"] then "HELLO"
          else if p = ["etc", "secret"] then "TOPSECRET2" else ""
        dirEntries := fun _ => [] }
      (some "/w") ["proc"] "read @../etc/secret and @a.txt") ∧
    (processRef
      { access := fun p => p = ["w"] || p = ["w", "a.txt"] ||
          p = ["etc", "secret"]
        realp := fun p => if p = ["w"] || p = ["w", "a.txt"] ||
          p = ["etc", "secret"] then some p else none
        isDir := fun p => p = ["w"]
        size := fun p => if p = ["w", "a.txt"] then 5 else 9
        content := fun p => if p = ["w", "a.txt"] then "HELLO"
          else if p = ["etc", "secret"] then "TOPSECRET1" else ""
        dirEntries := fun _ => [] }
      (lexicalWorkDirOf (some "/w") ["proc"])
      (canonicalWorkDirOf
        { access := fun p => p = ["w"] || p = ["w", "a.txt"] ||
            p = ["etc", "secret"]
          realp := fun p => if p = ["w"] || p = ["w", "a.txt"] ||
            p = ["etc", "secret"] then some p else none
          isDir := fun p => p = ["w"]
          size := fun p => if p = ["w", "a.txt"] then 5 else 9
          content := fun p => if p = ["w", "a.txt"] then "HELLO"
            else if p = ["etc", "secret"] then "TOPSECRET1" else ""
          dirEntries := fun _ => [] }
        (some "/w") ["proc"])
      { translated := "read @../etc/secret and @a.txt"
        totalInlinedBytes := 0
        processedRefs := []
        processedTargets := [] } "@../etc/secret" =
      { translated := jsReplaceOnce "read @../etc/secret and @a.txt"
          "@../etc/secret" (ACCESS_DENIED_OUTSIDE_WORKSPACE ++ " (" ++
            strDrop "@../etc/secret" 1 ++ ")")
        totalInlinedBytes := 0
        processedRefs := [] ++ ["@../etc/secret"]
        processedTargets := [] }) := by
  constructor
  · apply (C5_inliner_noninterference (some "/w") ["proc"]).1
    refine ⟨rfl, rfl, rfl, rfl, ?_⟩
    intro p hp
    refine ⟨rfl, ?_⟩
    by_cases h1 : p = ["w", "a.txt"]
    · simp [h1]
    · by_cases h2 : p = ["etc", "secret"]
      · rw [h2] at hp
        exact absurd hp (by decide)
      · simp [h1, h2]
  · exact (C5_inliner_noninterference (some "/w") ["proc"]).2 _ _
      "@../etc/secret" rfl (by decide)
